import Mathlib

/-!
Shallow embedding of the DeFi demo server (src/server/storage.ts,
src/server/routes.ts, and the shared schema file).

Modelling conventions:
* Decimal-string amounts and prices are modelled as exact rationals (ℚ);
  `parseFloat` of a decimal string is the identity under this reading.
* JS `x.toFixed(n)` is modelled as exact rounding to `n` decimal places.
* Timestamps (`Date.now()`, `new Date()`) are natural numbers supplied as
  explicit `now` parameters.
* Randomness (usernames, network fees, seeded balances, tx hashes) is
  supplied through explicit parameters.
* The external CoinGecko price feed is abstracted as an oracle
  `String → Option Quote`; `none` models a fetch that throws.
* `setTimeout` settlement callbacks become entries of an explicit queue;
  a settlement step fires one queued callback, capturing exactly the data
  the JS closure captures (including the admission-time balance snapshot).
-/

namespace Defi

/-- JS `x.toFixed(n)` on an exact decimal value: round to `n` decimal
places (ties rounded up, as for the positive values arising here). -/
def toFixedQ (n : ℕ) (q : ℚ) : ℚ :=
  (Int.floor (q * (10:ℚ)^n + 1/2) : ℚ) / (10:ℚ)^n

/-- JS `d || fallback` on a number: `0` is falsy. -/
def jsOrNat (d fallback : ℕ) : ℕ := if d = 0 then fallback else d

/-- JS truthiness of an optional string: `undefined` and `""` are falsy. -/
def strTruthy : Option String → Bool
  | none => false
  | some s => !(s == "")

/-- JS `w || ""` on an optional string. -/
def strOrEmpty : Option String → String
  | none => ""
  | some s => s

/-- `users` table row (shared schema / storage.ts). -/
structure User where
  id : ℕ
  username : String
  password : String
  walletAddress : Option String
  createdAt : ℕ
  deriving Repr, DecidableEq

/-- `tokens` table row. -/
structure Token where
  id : ℕ
  symbol : String
  name : String
  logoUrl : String
  decimals : ℕ
  contractAddress : String
  network : String
  deriving Repr, DecidableEq

/-- `user_balances` table row; `balance` is the stored decimal string. -/
structure UserBalance where
  id : ℕ
  userId : ℕ
  tokenId : ℕ
  balance : ℚ
  updatedAt : ℕ
  deriving Repr, DecidableEq

/-- Transaction `metadata` JSON: routes.ts stores either a swap rate with a
price impact, or a trading pair label. -/
inductive Metadata where
  | swapMeta (rate : ℚ) (priceImpact : String)
  | tradeMeta (pair : String)
  deriving Repr, DecidableEq

/-- `transactions` table row. The route handlers always populate the token
and amount fields, so they are modelled as non-optional. -/
structure Transaction where
  id : ℕ
  userId : ℕ
  type : String
  status : String
  fromTokenId : ℕ
  toTokenId : ℕ
  fromAmount : ℚ
  toAmount : ℚ
  price : ℚ
  txHash : Option String
  networkFee : ℚ
  metadata : Metadata
  createdAt : ℕ
  updatedAt : ℕ
  deriving Repr, DecidableEq

/-- `token_prices` table row (fields the modelled routes touch). -/
structure TokenPrice where
  id : ℕ
  tokenId : ℕ
  price : ℚ
  priceChange24h : Option ℚ
  volume24h : Option ℚ
  marketCap : Option ℚ
  updatedAt : ℕ
  deriving Repr, DecidableEq

/-- Result shape of routes.ts `getTokenPrice` (a live quote). -/
structure Quote where
  price : ℚ
  priceChange24h : ℚ
  volume24h : Option ℚ
  marketCap : Option ℚ
  deriving Repr, DecidableEq

/-- In-memory store of storage.ts `MemStorage`; the JS `Map`s (which iterate
in insertion order) become lists, and each `currentXId` counter is kept. -/
structure MemStorage where
  users : List User
  tokens : List Token
  userBalances : List UserBalance
  transactions : List Transaction
  tokenPrices : List TokenPrice
  currentUserId : ℕ
  currentTokenId : ℕ
  currentBalanceId : ℕ
  currentTransactionId : ℕ
  currentTokenPriceId : ℕ
  deriving Repr, DecidableEq

/-- `MemStorage.getUserByWalletAddress`. -/
def getUserByWalletAddress (s : MemStorage) (walletAddress : String) : Option User :=
  s.users.find? (fun u => u.walletAddress == some walletAddress)

/-- `MemStorage.createUser`. -/
def createUser (s : MemStorage) (username password : String)
    (walletAddress : Option String) (now : ℕ) : User × MemStorage :=
  let u : User := ⟨s.currentUserId, username, password, walletAddress, now⟩
  (u, { s with users := s.users ++ [u], currentUserId := s.currentUserId + 1 })

/-- `MemStorage.getToken`. -/
def getToken (s : MemStorage) (id : ℕ) : Option Token :=
  s.tokens.find? (fun t => t.id == id)

/-- `MemStorage.createToken`. -/
def createToken (s : MemStorage) (symbol name logoUrl : String) (decimals : ℕ)
    (contractAddress network : String) : Token × MemStorage :=
  let t : Token := ⟨s.currentTokenId, symbol, name, logoUrl, decimals, contractAddress, network⟩
  (t, { s with tokens := s.tokens ++ [t], currentTokenId := s.currentTokenId + 1 })

/-- `MemStorage.getUserBalance` (key `userId-tokenId`). -/
def getUserBalance (s : MemStorage) (userId tokenId : ℕ) : Option UserBalance :=
  s.userBalances.find? (fun b => b.userId == userId && b.tokenId == tokenId)

/-- `MemStorage.getUserBalances`. -/
def getUserBalances (s : MemStorage) (userId : ℕ) : List UserBalance :=
  s.userBalances.filter (fun b => b.userId == userId)

/-- `MemStorage.createOrUpdateUserBalance`: upsert by the `(userId, tokenId)`
composite key; an existing row keeps its id, a new row is appended with the
next balance id. -/
def createOrUpdateUserBalance (s : MemStorage) (userId tokenId : ℕ)
    (balance : ℚ) (now : ℕ) : MemStorage :=
  match getUserBalance s userId tokenId with
  | some _ =>
      { s with userBalances :=
          s.userBalances.map (fun b =>
            if b.userId == userId && b.tokenId == tokenId then
              { b with balance := balance, updatedAt := now }
            else b) }
  | none =>
      { s with
          userBalances := s.userBalances ++
            [⟨s.currentBalanceId, userId, tokenId, balance, now⟩],
          currentBalanceId := s.currentBalanceId + 1 }

/-- The caller-supplied part of a transaction row (insert schema). -/
structure InsertTransaction where
  userId : ℕ
  type : String
  status : String
  fromTokenId : ℕ
  toTokenId : ℕ
  fromAmount : ℚ
  toAmount : ℚ
  price : ℚ
  networkFee : ℚ
  metadata : Metadata
  deriving Repr, DecidableEq

/-- `MemStorage.createTransaction`: next id, created/updated stamped `now`;
the insert payloads built in routes.ts carry no `txHash`, so it is `none`. -/
def createTransaction (s : MemStorage) (t : InsertTransaction) (now : ℕ) :
    Transaction × MemStorage :=
  let tx : Transaction :=
    ⟨s.currentTransactionId, t.userId, t.type, t.status, t.fromTokenId, t.toTokenId,
      t.fromAmount, t.toAmount, t.price, none, t.networkFee, t.metadata, now, now⟩
  (tx, { s with transactions := s.transactions ++ [tx],
                currentTransactionId := s.currentTransactionId + 1 })

/-- `MemStorage.updateTransactionStatus`: no-op when the id is unknown;
otherwise rewrite status, hash (`txHash || transaction.txHash`, so an empty
string keeps the old hash) and the updated timestamp. -/
def updateTransactionStatus (s : MemStorage) (id : ℕ) (status : String)
    (txHash : Option String) (now : ℕ) : MemStorage :=
  match s.transactions.find? (fun tx => tx.id == id) with
  | none => s
  | some _ =>
      { s with transactions :=
          s.transactions.map (fun tx =>
            if tx.id == id then
              { tx with status := status,
                        txHash := (match txHash with
                                   | some h => if h == "" then tx.txHash else some h
                                   | none => tx.txHash),
                        updatedAt := now }
            else tx) }

/-- `MemStorage.getTokenPrice` (stored last-known quote, keyed by token id). -/
def getStoredTokenPrice (s : MemStorage) (tokenId : ℕ) : Option TokenPrice :=
  s.tokenPrices.find? (fun p => p.tokenId == tokenId)

/-- `MemStorage.createOrUpdateTokenPrice` restricted to the fields the
modelled callers pass (tokenId, price, priceChange24h, volume24h). -/
def createOrUpdateTokenPrice (s : MemStorage) (tokenId : ℕ) (price : ℚ)
    (priceChange24h volume24h : Option ℚ) (now : ℕ) : MemStorage :=
  match getStoredTokenPrice s tokenId with
  | some _ =>
      { s with tokenPrices :=
          s.tokenPrices.map (fun p =>
            if p.tokenId == tokenId then
              { p with price := price, priceChange24h := priceChange24h,
                       volume24h := volume24h, updatedAt := now }
            else p) }
  | none =>
      { s with
          tokenPrices := s.tokenPrices ++
            [⟨s.currentTokenPriceId, tokenId, price, priceChange24h, volume24h, none, now⟩],
          currentTokenPriceId := s.currentTokenPriceId + 1 }

/-- The empty store before `initializeDefaultTokens` runs. -/
def emptyStore : MemStorage := ⟨[], [], [], [], [], 1, 1, 1, 1, 1⟩

/-- The store the `MemStorage` constructor seeds: five default tokens and
their default prices (storage.ts `initializeDefaultTokens`). -/
def initStore : MemStorage :=
  let s0 := emptyStore
  let s1 := (createToken s0 "ETH" "Ethereum" "https://cryptologos.cc/logos/ethereum-eth-logo.svg" 18 "0xEeeeeEeeeEeEeeEeEeEeeEEEeeeeEeeeeeeeEEeE" "ethereum").2
  let s2 := (createToken s1 "BTC" "Bitcoin" "https://cryptologos.cc/logos/bitcoin-btc-logo.svg" 8 "0x" "bitcoin").2
  let s3 := (createToken s2 "USDT" "Tether" "https://cryptologos.cc/logos/tether-usdt-logo.svg" 6 "0xdAC17F958D2ee523a2206206994597C13D831ec7" "ethereum").2
  let s4 := (createToken s3 "SOL" "Solana" "https://cryptologos.cc/logos/solana-sol-logo.svg" 9 "0x" "solana").2
  let s5 := (createToken s4 "ADA" "Cardano" "https://cryptologos.cc/logos/cardano-ada-logo.svg" 6 "0x" "cardano").2
  let s6 := createOrUpdateTokenPrice s5 1 (324567/100) (some (245/100)) (some 1000000000) 0
  let s7 := createOrUpdateTokenPrice s6 2 (4478209/100) (some (187/100)) (some 2500000000) 0
  let s8 := createOrUpdateTokenPrice s7 3 1 (some (1/100)) (some 5000000000) 0
  let s9 := createOrUpdateTokenPrice s8 4 (9834/100) (some (-65/100)) (some 750000000) 0
  createOrUpdateTokenPrice s9 5 (4523/10000) (some (312/100)) (some 300000000) 0

/-- A queued `setTimeout` settlement callback. Both the swap handler and the
trade handler capture: the transaction id, the user id, the debited and
credited token ids, the source-balance value read at admission time (the
closure keeps the admission-time `UserBalance` object, which settlement's
`createOrUpdateUserBalance` never mutates in place), the amount to debit and
the amount to credit. -/
structure SettleEntry where
  txId : ℕ
  userId : ℕ
  srcTokenId : ℕ
  dstTokenId : ℕ
  snapshot : ℚ
  debit : ℚ
  credit : ℚ
  deriving Repr, DecidableEq

/-- Whole-system state: the store plus the pending settlement timers. -/
structure Sys where
  store : MemStorage
  queue : List SettleEntry
  deriving Repr, DecidableEq

/-- One queued settlement firing (the body of the `setTimeout` callback in
routes.ts): mark the transaction completed with a simulated hash, overwrite
the source balance with `snapshot - debit`, then read the current destination
balance and overwrite it with `current + credit` (or create it as `credit`). -/
def runSettle (sys : Sys) (e : SettleEntry) (idx : ℕ) (txHash : String) (now : ℕ) : Sys :=
  let s1 := updateTransactionStatus sys.store e.txId "completed" (some txHash) now
  let s2 := createOrUpdateUserBalance s1 e.userId e.srcTokenId (e.snapshot - e.debit) now
  let newDst : ℚ :=
    match getUserBalance s2 e.userId e.dstTokenId with
    | some b => b.balance + e.credit
    | none => e.credit
  let s3 := createOrUpdateUserBalance s2 e.userId e.dstTokenId newDst now
  ⟨s3, sys.queue.eraseIdx idx⟩

/-- Errors the modelled handlers report, with their HTTP codes/messages. -/
inductive ApiErr where
  | tokenNotFound
  | walletRequired
  | pricesNotAvailable
  | insufficientBalance
  deriving Repr, DecidableEq

def httpStatus : ApiErr → ℕ
  | .tokenNotFound => 404
  | .walletRequired => 400
  | .pricesNotAvailable => 404
  | .insufficientBalance => 400

def errMessage : ApiErr → String
  | .tokenNotFound => "Token not found"
  | .walletRequired => "Wallet address is required"
  | .pricesNotAvailable => "Token prices not available"
  | .insufficientBalance => "Insufficient balance"

/-- Body of `POST /api/swap` after zod parsing (`swapTokensSchema`): the
amount field is an arbitrary decimal string, read here as its exact value. -/
structure SwapRequest where
  fromTokenId : ℕ
  toTokenId : ℕ
  fromAmount : ℚ
  walletAddress : Option String
  deriving Repr, DecidableEq

/-- Successful `POST /api/swap` response payload (scalar fields). -/
structure SwapResponse where
  transactionId : ℕ
  status : String
  fromAmount : ℚ
  toAmount : ℚ
  rate : ℚ
  networkFee : ℚ
  deriving Repr, DecidableEq

/-- Reference-price resolution of the swap handler: try the live feed for
both symbols; if either live fetch fails, fall back to the stored quotes for
both tokens; report `none` if a stored quote is then missing. -/
def resolvePrices (prices : List TokenPrice) (oracle : String → Option Quote)
    (fromTok toTok : Token) : Option (ℚ × ℚ) :=
  match oracle fromTok.symbol, oracle toTok.symbol with
  | some qf, some qt => some (qf.price, qt.price)
  | _, _ =>
      match prices.find? (fun p => p.tokenId == fromTok.id),
            prices.find? (fun p => p.tokenId == toTok.id) with
      | some pf, some pt => some (pf.price, pt.price)
      | _, _ => none

/-- The user lookup-or-create block shared verbatim by the swap and trade
handlers: look up `walletAddress || ""`; when absent and the address is
truthy (present and non-empty), create the user. -/
def lookupOrCreateUser (s : MemStorage) (w : Option String) (uname : String)
    (now : ℕ) : Option User × MemStorage :=
  match getUserByWalletAddress s (strOrEmpty w) with
  | some u => (some u, s)
  | none =>
      if strTruthy w then
        let p := createUser s uname "password" w now
        (some p.1, p.2)
      else (none, s)

/-- The `POST /api/swap` handler. `oracle` abstracts `getTokenPrice`, `fee`
the simulated network fee, `uname` the random username suffix draw. Returns
the response (or error) together with the successor system state; error
responses still carry any user-creation mutation that preceded them. -/
def swapPost (sys : Sys) (req : SwapRequest) (oracle : String → Option Quote)
    (fee : ℚ) (uname : String) (now : ℕ) : Except ApiErr SwapResponse × Sys :=
  match getToken sys.store req.fromTokenId, getToken sys.store req.toTokenId with
  | some fromTok, some toTok =>
      match lookupOrCreateUser sys.store req.walletAddress uname now with
      | (none, _) => (.error .walletRequired, sys)
      | (some user, store1) =>
          match resolvePrices store1.tokenPrices oracle fromTok toTok with
          | none => (.error .pricesNotAvailable, { sys with store := store1 })
          | some (fromPrice, toPrice) =>
              let fromAmount := req.fromAmount
              let rate := toPrice / fromPrice
              let toAmount := toFixedQ (jsOrNat toTok.decimals 6) (fromAmount * rate)
              match getUserBalance store1 user.id fromTok.id with
              | none => (.error .insufficientBalance, { sys with store := store1 })
              | some srcBal =>
                  if srcBal.balance < fromAmount then
                    (.error .insufficientBalance, { sys with store := store1 })
                  else
                    let (tx, store2) := createTransaction store1
                      ⟨user.id, "swap", "pending", fromTok.id, toTok.id,
                        fromAmount, toAmount, fromPrice, fee,
                        .swapMeta rate "0.05"⟩ now
                    let entry : SettleEntry :=
                      ⟨tx.id, user.id, fromTok.id, toTok.id, srcBal.balance,
                        fromAmount, toAmount⟩
                    (.ok ⟨tx.id, tx.status, req.fromAmount, toAmount, rate, fee⟩,
                     ⟨store2, sys.queue ++ [entry]⟩)
  | _, _ => (.error .tokenNotFound, sys)

/-- Body of `POST /api/trade` after zod parsing (`spotTradeSchema`). -/
structure TradeRequest where
  tokenId : ℕ
  baseTokenId : ℕ
  amount : ℚ
  price : ℚ
  type : String
  walletAddress : Option String
  deriving Repr, DecidableEq

/-- Successful `POST /api/trade` response payload (scalar fields). -/
structure TradeResponse where
  transactionId : ℕ
  status : String
  type : String
  amount : ℚ
  price : ℚ
  total : ℚ
  networkFee : ℚ
  deriving Repr, DecidableEq

/-- The `POST /api/trade` handler (spot buy/sell). -/
def tradePost (sys : Sys) (req : TradeRequest) (fee : ℚ) (uname : String)
    (now : ℕ) : Except ApiErr TradeResponse × Sys :=
  match getToken sys.store req.tokenId, getToken sys.store req.baseTokenId with
  | some token, some baseToken =>
      match lookupOrCreateUser sys.store req.walletAddress uname now with
      | (none, _) => (.error .walletRequired, sys)
      | (some user, store1) =>
          let amount := req.amount
          let price := req.price
          let total := amount * price
          let sourceTokenId := if req.type == "buy" then baseToken.id else token.id
          let sourceAmount := if req.type == "buy" then total else amount
          match getUserBalance store1 user.id sourceTokenId with
          | none => (.error .insufficientBalance, { sys with store := store1 })
          | some srcBal =>
              if srcBal.balance < sourceAmount then
                (.error .insufficientBalance, { sys with store := store1 })
              else
                let fromTokenId := if req.type == "buy" then baseToken.id else token.id
                let toTokenId := if req.type == "buy" then token.id else baseToken.id
                let fromAmount := if req.type == "buy" then total else amount
                let toAmount := if req.type == "buy" then amount else total
                let (tx, store2) := createTransaction store1
                  ⟨user.id, req.type, "pending", fromTokenId, toTokenId,
                    fromAmount, toAmount, price, fee,
                    .tradeMeta (token.symbol ++ "/" ++ baseToken.symbol)⟩ now
                let targetTokenId := if req.type == "buy" then token.id else baseToken.id
                let targetAmount := if req.type == "buy" then amount else total
                let entry : SettleEntry :=
                  ⟨tx.id, user.id, sourceTokenId, targetTokenId, srcBal.balance,
                    sourceAmount, targetAmount⟩
                (.ok ⟨tx.id, tx.status, req.type, amount, price, total, fee⟩,
                 ⟨store2, sys.queue ++ [entry]⟩)
  | _, _ => (.error .tokenNotFound, sys)

/-- Demo-balance placeholder seeded by `GET /api/portfolio` for one token:
`r` is the `Math.random()` draw in `[0, 1)`. -/
def seedAmount (t : Token) (r : ℚ) : ℚ :=
  if t.symbol == "USDT" then toFixedQ 2 (r * 5000 + 1000)
  else toFixedQ (if t.symbol == "BTC" then 8 else 4) (r * 5 + 1/10)

/-- The portfolio handler's seeding loop: one `createOrUpdateUserBalance`
per registered token, in registry order, with an independent random draw
(`rands i`) per iteration. -/
def seedBalances (s : MemStorage) (uid : ℕ) (toks : List Token)
    (rands : ℕ → ℚ) (i : ℕ) (now : ℕ) : MemStorage :=
  match toks with
  | [] => s
  | t :: ts =>
      seedBalances (createOrUpdateUserBalance s uid t.id (seedAmount t (rands i)) now)
        uid ts rands (i + 1) now

/-- One entry of the portfolio response's `assets` array (scalar fields).
The live quote's price string is never empty, so `livePrice?.price ||
tokenPrice.price` resolves to the live price whenever the oracle answers. -/
structure AssetEntry where
  tokenId : ℕ
  balance : ℚ
  value : ℚ
  price : ℚ
  deriving Repr, DecidableEq

/-- `GET /api/portfolio/:walletAddress` response (scalar fields). -/
structure PortfolioResponse where
  walletAddress : String
  totalValue : ℚ
  assets : List AssetEntry
  deriving Repr, DecidableEq

/-- The portfolio handler's lookup-or-create-and-seed block (the operation
the spec names `getOrCreateUserByWallet`): return the existing user, or
create one and seed a demo balance for every registered token. -/
def getOrCreateUserByWallet (s : MemStorage) (addr : String) (uname : String)
    (rands : ℕ → ℚ) (now : ℕ) : User × MemStorage :=
  match getUserByWalletAddress s addr with
  | some u => (u, s)
  | none =>
      let p := createUser s uname "password" (some addr) now
      (p.1, seedBalances p.2 p.1.id p.2.tokens rands 0 now)

/-- The `GET /api/portfolio/:walletAddress` handler: look up or create the
user (creation seeds one demo balance per registered token), then build one
asset entry per balance row, dropping rows whose token or stored price is
missing. -/
def portfolioGet (sys : Sys) (addr : String) (oracle : String → Option Quote)
    (rands : ℕ → ℚ) (uname : String) (now : ℕ) : PortfolioResponse × Sys :=
  let gc := getOrCreateUserByWallet sys.store addr uname rands now
  let user := gc.1
  let store1 := gc.2
  let balances := getUserBalances store1 user.id
  let assets := balances.filterMap (fun b =>
    match store1.tokens.find? (fun t => t.id == b.tokenId),
          store1.tokenPrices.find? (fun p => p.tokenId == b.tokenId) with
    | some t, some sp =>
        let price := match oracle t.symbol with
                     | some q => q.price
                     | none => sp.price
        some ⟨b.tokenId, b.balance, toFixedQ 2 (b.balance * price), price⟩
    | _, _ => none)
  let totalValue := toFixedQ 2 (assets.map (fun a => a.value)).sum
  (⟨addr, totalValue, assets⟩, { sys with store := store1 })

/-- One externally triggered event of the modelled system: a swap request, a
trade request, a portfolio request, or the firing of the `i`-th pending
settlement timer. Randomness and the price feed are carried as parameters. -/
inductive Op where
  | swap (req : SwapRequest) (oracle : String → Option Quote) (fee : ℚ)
      (uname : String) (now : ℕ)
  | trade (req : TradeRequest) (fee : ℚ) (uname : String) (now : ℕ)
  | portfolio (addr : String) (oracle : String → Option Quote) (rands : ℕ → ℚ)
      (uname : String) (now : ℕ)
  | settle (i : ℕ) (txHash : String) (now : ℕ)

/-- State transition of one event. A `settle` naming an absent queue index
is a no-op (each timer fires exactly once). -/
def applyOp (sys : Sys) : Op → Sys
  | .swap req oracle fee uname now => (swapPost sys req oracle fee uname now).2
  | .trade req fee uname now => (tradePost sys req fee uname now).2
  | .portfolio addr oracle rands uname now =>
      (portfolioGet sys addr oracle rands uname now).2
  | .settle i txHash now =>
      match sys.queue[i]? with
      | some e => runSettle sys e i txHash now
      | none => sys

/-- System state at server start: seeded store, no pending timers. -/
def initSys : Sys := ⟨initStore, []⟩

/-- Run a sequence of events from a state. -/
def runOps (sys : Sys) (ops : List Op) : Sys := ops.foldl applyOp sys

/-- A state reachable from server start by some interleaving of requests
and settlement firings. -/
def Reachable (sys : Sys) : Prop := ∃ ops : List Op, runOps initSys ops = sys

/-- One entry of the module-level `tokenPriceCache` map. -/
structure CacheEntry where
  data : Quote
  timestamp : ℕ
  deriving Repr, DecidableEq

/-- Outcome of one upstream CoinGecko call for `getTokenPrice`. -/
inductive FetchOutcome where
  | ok (q : Quote)
  | rateLimited (retryAfterSec : Option ℕ)
  | fail

/-- The module-level globals `getTokenPrice` touches: the per-symbol cache,
the `API_RATE_LIMIT` flag and reset time, and the deferred-request queue
(modelled by the queued symbols). -/
structure PriceGlobals where
  cache : List (String × CacheEntry)
  isRateLimited : Bool
  resetTime : ℕ
  queued : List String
  deriving Repr, DecidableEq

/-- Result of one `getTokenPrice` call: the settled promise, the successor
globals, and whether an upstream network call was issued. -/
structure PriceCallResult where
  result : Except String Quote
  globals : PriceGlobals
  networkCalled : Bool

/-- `getTokenPrice(tokenSymbol)` of routes.ts. Cache entries younger than
5 minutes (300000 ms) resolve immediately. Otherwise, under an active rate
limit the call answers from the (stale) cache if present, else defers and
rejects. Otherwise the upstream call runs: success updates the cache; a 429
sets the rate-limit state, defers a retry, and answers from cache if present
(else rejects); any other failure answers from cache if present. -/
def getTokenPriceM (g : PriceGlobals) (sym : String) (now : ℕ)
    (net : FetchOutcome) : PriceCallResult :=
  let cached := (g.cache.find? (fun kv => kv.1 == sym)).map Prod.snd
  match cached with
  | some e =>
      if (now : ℤ) - e.timestamp < 300000 then ⟨.ok e.data, g, false⟩
      else if g.isRateLimited then ⟨.ok e.data, g, false⟩
      else
        match net with
        | .ok q =>
            ⟨.ok q,
             { g with cache := g.cache.map (fun kv =>
                 if kv.1 == sym then (kv.1, ⟨q, now⟩) else kv) },
             true⟩
        | .rateLimited retry =>
            ⟨.ok e.data,
             { g with isRateLimited := true,
                      resetTime := max g.resetTime (now + (retry.getD 60) * 1000),
                      queued := g.queued ++ [sym] },
             true⟩
        | .fail => ⟨.ok e.data, g, true⟩
  | none =>
      if g.isRateLimited then
        ⟨.error "Rate limited, using cached data",
         { g with queued := g.queued ++ [sym] }, false⟩
      else
        match net with
        | .ok q => ⟨.ok q, { g with cache := g.cache ++ [(sym, ⟨q, now⟩)] }, true⟩
        | .rateLimited retry =>
            ⟨.error "Rate limited",
             { g with isRateLimited := true,
                      resetTime := max g.resetTime (now + (retry.getD 60) * 1000),
                      queued := g.queued ++ [sym] },
             true⟩
        | .fail => ⟨.error "fetch error", g, true⟩

/-- Scenario fixture from the spec (§8): a store seeding token ETH (id 1,
18 decimals) priced 3000 and token USDT (id 2, 6 decimals) priced 1, and one
user (id 1, wallet `0xabc`) holding an ETH balance of 2. -/
def scnStore : MemStorage where
  users := [⟨1, "user_1", "password", some "0xabc", 0⟩]
  tokens := [⟨1, "ETH", "Ethereum", "logo", 18, "0x", "ethereum"⟩,
             ⟨2, "USDT", "Tether", "logo", 6, "0x", "ethereum"⟩]
  userBalances := [⟨1, 1, 1, 2, 0⟩]
  transactions := []
  tokenPrices := [⟨1, 1, 3000, some 1, none, none, 0⟩,
                  ⟨2, 2, 1, some 0, none, none, 0⟩]
  currentUserId := 2
  currentTokenId := 3
  currentBalanceId := 2
  currentTransactionId := 1
  currentTokenPriceId := 3

def scnSys : Sys := ⟨scnStore, []⟩

def scnEth : Token := ⟨1, "ETH", "Ethereum", "logo", 18, "0x", "ethereum"⟩

def scnUsdt : Token := ⟨2, "USDT", "Tether", "logo", 6, "0x", "ethereum"⟩

/-- The scenario's swap request: 1 ETH → USDT from wallet `0xabc`. -/
def scnReq : SwapRequest := ⟨1, 2, 1, some "0xabc"⟩

/-- Scenario price feed: the live fetch fails, so the handler falls back to
the seeded stored prices (ETH = 3000, USDT = 1). -/
def scnOracle : String → Option Quote := fun _ => none

/-- The swap response the handler actually produces on the scenario. -/
def scnResp : SwapResponse := ⟨1, "pending", 1, 333/1000000, 1/3000, 1/1000⟩

/-! ## Theorems -/

lemma lookupOrCreateUser_tokenPrices (s : MemStorage) (w : Option String)
    (uname : String) (now : ℕ) :
    (lookupOrCreateUser s w uname now).2.tokenPrices = s.tokenPrices := by
  unfold lookupOrCreateUser
  split
  · rfl
  · split <;> rfl

/-- C1: every swap admitted via POST /api/swap answers with
`toAmount = fromAmount * (price(toToken) / price(fromToken))` rounded to the
destination token's declared decimal precision, where a declared precision
of `0` (JS-falsy, i.e. an absent declaration) defaults to 6, and the prices
are the handler's resolved reference prices (live feed, else stored). -/
theorem C1_swap_toAmount_rounding (sys : Sys) (req : SwapRequest)
    (oracle : String → Option Quote) (fee : ℚ) (uname : String) (now : ℕ)
    (resp : SwapResponse) (fromTok toTok : Token) (pf pt : ℚ)
    (hf : getToken sys.store req.fromTokenId = some fromTok)
    (ht : getToken sys.store req.toTokenId = some toTok)
    (hp : resolvePrices sys.store.tokenPrices oracle fromTok toTok = some (pf, pt))
    (hok : (swapPost sys req oracle fee uname now).1 = .ok resp) :
    resp.toAmount = toFixedQ (jsOrNat toTok.decimals 6) (req.fromAmount * (pt / pf)) := by
  unfold swapPost at hok
  split at hok
  case h_2 => simp at hok
  case h_1 ft tt h1 h2 =>
    rw [hf] at h1
    rw [ht] at h2
    simp only [Option.some.injEq] at h1 h2
    subst h1
    subst h2
    split at hok
    · simp at hok
    · rename_i user store1 heq
      have hps := lookupOrCreateUser_tokenPrices sys.store req.walletAddress uname now
      rw [heq] at hps
      dsimp only at hps
      rw [hps, hp] at hok
      split at hok
      · simp at hok
      · rename_i fp tp hpp
        simp only [Option.some.injEq, Prod.mk.injEq] at hpp
        obtain ⟨h3, h4⟩ := hpp
        subst h3
        subst h4
        split at hok
        · simp at hok
        · rename_i srcBal hb
          dsimp only at hok
          split at hok
          · simp at hok
          · simp only [Except.ok.injEq] at hok
            subst hok
            rfl

lemma scn_swap_eval :
    (swapPost scnSys scnReq scnOracle (1/1000) "u" 5).1 = .ok scnResp := by
  norm_num [swapPost, scnSys, scnStore, scnReq, scnOracle, scnResp, lookupOrCreateUser,
    getToken, getUserByWalletAddress, getUserBalance, createUser, createTransaction,
    resolvePrices, toFixedQ, jsOrNat, strTruthy, strOrEmpty, List.find?_cons_of_pos,
    List.find?_cons_of_neg, List.find?_nil]

theorem C1_swap_toAmount_rounding_witness :
    (getToken scnSys.store 1 = some scnEth ∧
     getToken scnSys.store 2 = some scnUsdt ∧
     resolvePrices scnSys.store.tokenPrices scnOracle scnEth scnUsdt = some (3000, 1) ∧
     (swapPost scnSys scnReq scnOracle (1/1000) "u" 5).1 = .ok scnResp) ∧
    scnResp.toAmount = toFixedQ (jsOrNat scnUsdt.decimals 6) (scnReq.fromAmount * (1 / 3000)) :=
  ⟨⟨rfl, rfl, rfl, scn_swap_eval⟩,
   C1_swap_toAmount_rounding scnSys scnReq scnOracle (1/1000) "u" 5 scnResp
     scnEth scnUsdt 3000 1 rfl rfl rfl scn_swap_eval⟩

/-- C2 (code evaluated at the claimed scenario): on the seeded scenario
(ETH priced 3000, USDT priced 1, ETH balance 2), swapping `fromAmount = 1`
ETH for USDT immediately returns status "pending" but `toAmount =
333/1000000 ≈ 0.000333`, NOT ≈ 3000: the handler computes the rate as
`price(to)/price(from) = 1/3000` (inverted relative to the claimed value).
After settlement the ETH balance is 1 (as the claim says) and the USDT
balance is 333/1000000, i.e. increased by ≈ 0.000333 rather than ≈ 3000. -/
theorem C2_scenario_swap_eval :
    (swapPost scnSys scnReq scnOracle (1/1000) "u" 5).1 = .ok scnResp ∧
    scnResp.status = "pending" ∧
    scnResp.toAmount = 333/1000000 ∧
    ¬ (2999 ≤ scnResp.toAmount) ∧
    (let sys2 := applyOp (swapPost scnSys scnReq scnOracle (1/1000) "u" 5).2
                   (.settle 0 "0xhash" 7)
     (getUserBalance sys2.store 1 1).map UserBalance.balance = some 1 ∧
     (getUserBalance sys2.store 1 2).map UserBalance.balance = some (333/1000000)) := by
  refine ⟨scn_swap_eval, rfl, by norm_num [scnResp], by norm_num [scnResp], ?_, ?_⟩ <;>
    norm_num [applyOp, runSettle, swapPost, scnSys, scnStore, scnReq, scnOracle,
      lookupOrCreateUser, getToken, getUserByWalletAddress, getUserBalance, createUser,
      createTransaction, updateTransactionStatus, createOrUpdateUserBalance,
      resolvePrices, toFixedQ, jsOrNat, strTruthy, strOrEmpty, List.find?_cons_of_pos,
      List.find?_cons_of_neg, List.find?_nil, List.eraseIdx]

/-- C10: whenever the price cache holds an entry for a symbol that is
younger than the 5-minute (300000 ms) freshness window, or the global
rate-limited flag is set, `getTokenPrice` resolves with exactly the cached
data, issues no upstream network call, and does not reject. -/
theorem C10_cached_or_ratelimited_uses_cache (g : PriceGlobals) (sym : String)
    (now : ℕ) (net : FetchOutcome) (e : CacheEntry)
    (hc : (g.cache.find? (fun kv => kv.1 == sym)).map Prod.snd = some e)
    (hok : (now : ℤ) - e.timestamp < 300000 ∨ g.isRateLimited = true) :
    (getTokenPriceM g sym now net).result = .ok e.data ∧
    (getTokenPriceM g sym now net).networkCalled = false := by
  unfold getTokenPriceM
  rw [hc]
  dsimp only
  rcases hok with h | h
  · rw [if_pos h]
    exact ⟨rfl, rfl⟩
  · by_cases h2 : (now : ℤ) - e.timestamp < 300000
    · rw [if_pos h2]
      exact ⟨rfl, rfl⟩
    · rw [if_neg h2, h]
      exact ⟨rfl, rfl⟩

/-- Fixture for the rate-limited cache scenario: a cached BTC quote that is
already stale, while the rate-limited flag is set. -/
def c10Entry : CacheEntry := ⟨⟨44000, 2, none, none⟩, 0⟩

def c10Globals : PriceGlobals := ⟨[("BTC", c10Entry)], true, 500000, []⟩

theorem C10_cached_or_ratelimited_uses_cache_witness :
    ((c10Globals.cache.find? (fun kv => kv.1 == "BTC")).map Prod.snd = some c10Entry ∧
     (((400000 : ℕ) : ℤ) - c10Entry.timestamp < 300000 ∨ c10Globals.isRateLimited = true)) ∧
    (getTokenPriceM c10Globals "BTC" 400000 .fail).result = .ok c10Entry.data ∧
    (getTokenPriceM c10Globals "BTC" 400000 .fail).networkCalled = false :=
  ⟨⟨rfl, Or.inr rfl⟩,
   C10_cached_or_ratelimited_uses_cache c10Globals "BTC" 400000 .fail c10Entry
     rfl (Or.inr rfl)⟩

lemma createOrUpdateUserBalance_users (s : MemStorage) (uid tid : ℕ) (b : ℚ) (now : ℕ) :
    (createOrUpdateUserBalance s uid tid b now).users = s.users := by
  unfold createOrUpdateUserBalance
  split <;> rfl

lemma seedBalances_users (toks : List Token) (s : MemStorage) (uid : ℕ)
    (rands : ℕ → ℚ) (i now : ℕ) :
    (seedBalances s uid toks rands i now).users = s.users := by
  induction toks generalizing s i with
  | nil => rfl
  | cons t ts ih => rw [seedBalances, ih, createOrUpdateUserBalance_users]

lemma getOrCreateUserByWallet_found (s : MemStorage) (addr uname : String)
    (rands : ℕ → ℚ) (now : ℕ) (u : User)
    (h : getUserByWalletAddress s addr = some u) :
    getOrCreateUserByWallet s addr uname rands now = (u, s) := by
  unfold getOrCreateUserByWallet
  rw [h]

/-- C8: the get-or-create-user-by-wallet operation is idempotent: a second
invocation with the same wallet address returns the same user identifier
and leaves the store untouched (no user created, no balance row seeded or
overwritten), whatever username draws, random draws and clock values the
two invocations see. -/
theorem C8_getOrCreateUser_idempotent (s : MemStorage) (addr : String)
    (un1 un2 : String) (r1 r2 : ℕ → ℚ) (n1 n2 : ℕ) :
    (getOrCreateUserByWallet (getOrCreateUserByWallet s addr un1 r1 n1).2 addr un2 r2 n2).1.id
      = (getOrCreateUserByWallet s addr un1 r1 n1).1.id ∧
    (getOrCreateUserByWallet (getOrCreateUserByWallet s addr un1 r1 n1).2 addr un2 r2 n2).2
      = (getOrCreateUserByWallet s addr un1 r1 n1).2 := by
  cases h : getUserByWalletAddress s addr with
  | some u =>
      simp [getOrCreateUserByWallet, h]
  | none =>
      have husers : (getOrCreateUserByWallet s addr un1 r1 n1).2.users
          = s.users ++ [⟨s.currentUserId, un1, "password", some addr, n1⟩] := by
        simp [getOrCreateUserByWallet, h, seedBalances_users, createUser]
      have h2 : getUserByWalletAddress (getOrCreateUserByWallet s addr un1 r1 n1).2 addr
          = some ⟨s.currentUserId, un1, "password", some addr, n1⟩ := by
        unfold getUserByWalletAddress
        rw [husers, List.find?_append]
        unfold getUserByWalletAddress at h
        rw [h]
        simp
      rw [getOrCreateUserByWallet_found _ _ _ _ _ _ h2]
      refine ⟨?_, rfl⟩
      simp [getOrCreateUserByWallet, h, createUser]

lemma lookupOrCreateUser_tokens (s : MemStorage) (w : Option String)
    (uname : String) (now : ℕ) :
    (lookupOrCreateUser s w uname now).2.tokens = s.tokens := by
  unfold lookupOrCreateUser
  split
  · rfl
  · split <;> rfl

lemma lookupOrCreateUser_userBalances (s : MemStorage) (w : Option String)
    (uname : String) (now : ℕ) :
    (lookupOrCreateUser s w uname now).2.userBalances = s.userBalances := by
  unfold lookupOrCreateUser
  split
  · rfl
  · split <;> rfl

lemma lookupOrCreateUser_transactions (s : MemStorage) (w : Option String)
    (uname : String) (now : ℕ) :
    (lookupOrCreateUser s w uname now).2.transactions = s.transactions := by
  unfold lookupOrCreateUser
  split
  · rfl
  · split <;> rfl

lemma lookupOrCreateUser_curTx (s : MemStorage) (w : Option String)
    (uname : String) (now : ℕ) :
    (lookupOrCreateUser s w uname now).2.currentTransactionId = s.currentTransactionId := by
  unfold lookupOrCreateUser
  split
  · rfl
  · split <;> rfl

lemma lookupOrCreateUser_curBalId (s : MemStorage) (w : Option String)
    (uname : String) (now : ℕ) :
    (lookupOrCreateUser s w uname now).2.currentBalanceId = s.currentBalanceId := by
  unfold lookupOrCreateUser
  split
  · rfl
  · split <;> rfl

lemma lookupOrCreateUser_users_spec (s : MemStorage) (w : Option String)
    (uname : String) (now : ℕ) :
    (lookupOrCreateUser s w uname now).2 = s ∨
    (getUserByWalletAddress s (strOrEmpty w) = none ∧
     (lookupOrCreateUser s w uname now).2.users
       = s.users ++ [⟨s.currentUserId, uname, "password", w, now⟩]) := by
  unfold lookupOrCreateUser
  split
  · exact Or.inl rfl
  · rename_i h
    split
    · exact Or.inr ⟨h, rfl⟩
    · exact Or.inl rfl

lemma lookupOrCreateUser_found (s : MemStorage) (w : Option String)
    (uname : String) (now : ℕ) (u : User)
    (h : getUserByWalletAddress s (strOrEmpty w) = some u) :
    lookupOrCreateUser s w uname now = (some u, s) := by
  unfold lookupOrCreateUser
  rw [h]

/-- C3 (amended): every POST /api/swap request rejected at admission gets a
synchronous error; no transaction row is created, no settlement is queued,
and no balance, token or price row changes. The only possible mutation
before the error is the lazy creation of the user row for a previously
unseen, non-empty wallet address; when the wallet address resolves to an
existing user the store is left exactly as it was. -/
theorem C3_swap_reject_effects (sys : Sys) (req : SwapRequest)
    (oracle : String → Option Quote) (fee : ℚ) (uname : String) (now : ℕ) (e : ApiErr)
    (herr : (swapPost sys req oracle fee uname now).1 = .error e) :
    (swapPost sys req oracle fee uname now).2.store.transactions = sys.store.transactions ∧
    (swapPost sys req oracle fee uname now).2.queue = sys.queue ∧
    (swapPost sys req oracle fee uname now).2.store.userBalances = sys.store.userBalances ∧
    (swapPost sys req oracle fee uname now).2.store.tokens = sys.store.tokens ∧
    (swapPost sys req oracle fee uname now).2.store.tokenPrices = sys.store.tokenPrices ∧
    ((swapPost sys req oracle fee uname now).2.store.users = sys.store.users ∨
     (getUserByWalletAddress sys.store (strOrEmpty req.walletAddress) = none ∧
      (swapPost sys req oracle fee uname now).2.store.users
        = sys.store.users ++ [⟨sys.store.currentUserId, uname, "password", req.walletAddress, now⟩])) ∧
    (∀ u, getUserByWalletAddress sys.store (strOrEmpty req.walletAddress) = some u →
      (swapPost sys req oracle fee uname now).2 = sys) := by
  rcases hsp : swapPost sys req oracle fee uname now with ⟨res, sys2⟩
  rw [hsp] at herr
  dsimp only at herr ⊢
  unfold swapPost at hsp
  split at hsp
  case h_2 =>
    injection hsp with hres hsys
    subst hsys
    exact ⟨rfl, rfl, rfl, rfl, rfl, Or.inl rfl, fun u hu => rfl⟩
  case h_1 ft tt h1 h2 =>
    split at hsp
    case h_1 =>
      injection hsp with hres hsys
      subst hsys
      exact ⟨rfl, rfl, rfl, rfl, rfl, Or.inl rfl, fun u hu => rfl⟩
    case h_2 user store1 hlu =>
      have hTok := lookupOrCreateUser_tokens sys.store req.walletAddress uname now
      have hBal := lookupOrCreateUser_userBalances sys.store req.walletAddress uname now
      have hTx := lookupOrCreateUser_transactions sys.store req.walletAddress uname now
      have hPr := lookupOrCreateUser_tokenPrices sys.store req.walletAddress uname now
      have hUs := lookupOrCreateUser_users_spec sys.store req.walletAddress uname now
      rw [hlu] at hTok hBal hTx hPr hUs
      dsimp only at hTok hBal hTx hPr hUs
      have hfound : ∀ u, getUserByWalletAddress sys.store (strOrEmpty req.walletAddress) = some u →
          store1 = sys.store := by
        intro u hu
        have h3 := (lookupOrCreateUser_found sys.store req.walletAddress uname now u hu).symm.trans hlu
        injection h3 with h4 h5
        exact h5.symm
      have main : ∀ h5 : sys2 = { sys with store := store1 },
          sys2.store.transactions = sys.store.transactions ∧
          sys2.queue = sys.queue ∧
          sys2.store.userBalances = sys.store.userBalances ∧
          sys2.store.tokens = sys.store.tokens ∧
          sys2.store.tokenPrices = sys.store.tokenPrices ∧
          (sys2.store.users = sys.store.users ∨
           (getUserByWalletAddress sys.store (strOrEmpty req.walletAddress) = none ∧
            sys2.store.users = sys.store.users ++
              [⟨sys.store.currentUserId, uname, "password", req.walletAddress, now⟩])) ∧
          (∀ u, getUserByWalletAddress sys.store (strOrEmpty req.walletAddress) = some u →
            sys2 = sys) := by
        intro h5
        subst h5
        refine ⟨hTx, rfl, hBal, hTok, hPr, ?_, ?_⟩
        · rcases hUs with h | ⟨hn, hu⟩
          · exact Or.inl (congrArg MemStorage.users h)
          · exact Or.inr ⟨hn, hu⟩
        · intro u hu
          rw [hfound u hu]
      split at hsp
      case h_1 =>
        injection hsp with hres hsys
        exact main hsys.symm
      case h_2 pf pt hpp =>
        split at hsp
        case h_1 =>
          injection hsp with hres hsys
          exact main hsys.symm
        case h_2 srcBal hb =>
          dsimp only at hsp
          split at hsp
          case isTrue =>
            injection hsp with hres hsys
            exact main hsys.symm
          case isFalse =>
            injection hsp with hres hsys
            rw [← hres] at herr
            simp at herr

/-- The swap request used to exhibit C3's failure: a previously unseen
wallet address with an insufficient (absent) balance. -/
def c3req : SwapRequest := ⟨1, 3, 1, some "0xfresh"⟩

/-- C3 (counterexample to the claim as stated): on the seeded initial store,
a swap from a never-seen wallet address is rejected with the
insufficient-balance 400, yet the store is NOT left exactly as it was: the
user row for the wallet was created before the error was reported. -/
theorem C3_reject_mutation_counterexample :
    (swapPost initSys c3req scnOracle (1/1000) "u" 5).1 = .error .insufficientBalance ∧
    httpStatus .insufficientBalance = 400 ∧
    errMessage .insufficientBalance = "Insufficient balance" ∧
    initSys.store.users = [] ∧
    (swapPost initSys c3req scnOracle (1/1000) "u" 5).2.store.users
      = [⟨1, "u", "password", some "0xfresh", 5⟩] :=
  ⟨rfl, rfl, rfl, rfl, rfl⟩

theorem C3_swap_reject_effects_witness :
    ((swapPost initSys c3req scnOracle (1/1000) "u" 5).1
        = .error .insufficientBalance) ∧
    ((swapPost initSys c3req scnOracle (1/1000) "u" 5).2.store.transactions
        = initSys.store.transactions ∧
     (swapPost initSys c3req scnOracle (1/1000) "u" 5).2.queue = initSys.queue ∧
     (swapPost initSys c3req scnOracle (1/1000) "u" 5).2.store.userBalances
        = initSys.store.userBalances ∧
     (swapPost initSys c3req scnOracle (1/1000) "u" 5).2.store.tokens
        = initSys.store.tokens ∧
     (swapPost initSys c3req scnOracle (1/1000) "u" 5).2.store.tokenPrices
        = initSys.store.tokenPrices ∧
     ((swapPost initSys c3req scnOracle (1/1000) "u" 5).2.store.users
          = initSys.store.users ∨
      (getUserByWalletAddress initSys.store (strOrEmpty c3req.walletAddress) = none ∧
       (swapPost initSys c3req scnOracle (1/1000) "u" 5).2.store.users
          = initSys.store.users ++
            [⟨initSys.store.currentUserId, "u", "password", c3req.walletAddress, 5⟩])) ∧
     (∀ u, getUserByWalletAddress initSys.store (strOrEmpty c3req.walletAddress) = some u →
        (swapPost initSys c3req scnOracle (1/1000) "u" 5).2 = initSys)) :=
  ⟨rfl, C3_swap_reject_effects initSys c3req scnOracle (1/1000) "u" 5
    .insufficientBalance rfl⟩

lemma lookupOrCreateUser_fresh (s : MemStorage) (w : Option String)
    (uname : String) (now : ℕ) (a : String)
    (hw : w = some a) (ha : a ≠ "")
    (h : getUserByWalletAddress s a = none) :
    lookupOrCreateUser s w uname now =
      (some ⟨s.currentUserId, uname, "password", w, now⟩,
       { s with users := s.users ++ [⟨s.currentUserId, uname, "password", w, now⟩],
                currentUserId := s.currentUserId + 1 }) := by
  subst hw
  unfold lookupOrCreateUser
  simp only [strOrEmpty]
  rw [h]
  simp only [strTruthy, ha, beq_iff_eq, if_true, Bool.not_eq_true]
  rw [if_pos]
  · rfl
  · simp [ha]

lemma getUserBalance_none_of_fresh (s : MemStorage) (uid tid : ℕ)
    (h : ∀ b ∈ s.userBalances, b.userId ≠ uid) :
    getUserBalance s uid tid = none := by
  unfold getUserBalance
  rw [List.find?_eq_none]
  intro b hb
  simp [h b hb]

lemma c4_swap_core (sys : Sys) (sreq : SwapRequest)
    (oracle : String → Option Quote) (fee : ℚ) (uname : String) (now : ℕ)
    (a : String) (ft tt : Token) (pf pt : ℚ)
    (hw : sreq.walletAddress = some a) (ha : a ≠ "")
    (hfresh : getUserByWalletAddress sys.store a = none)
    (hnob : ∀ b ∈ sys.store.userBalances, b.userId ≠ sys.store.currentUserId)
    (hft : getToken sys.store sreq.fromTokenId = some ft)
    (htt : getToken sys.store sreq.toTokenId = some tt)
    (hpr : resolvePrices sys.store.tokenPrices oracle ft tt = some (pf, pt)) :
    (swapPost sys sreq oracle fee uname now).1 = .error .insufficientBalance ∧
    (swapPost sys sreq oracle fee uname now).2.store.users
      = sys.store.users ++ [⟨sys.store.currentUserId, uname, "password", some a, now⟩] ∧
    (swapPost sys sreq oracle fee uname now).2.store.userBalances
      = sys.store.userBalances := by
  have hlu := lookupOrCreateUser_fresh sys.store sreq.walletAddress uname now a hw ha hfresh
  have hnb : getUserBalance
      { sys.store with
          users := sys.store.users ++ [⟨sys.store.currentUserId, uname, "password", sreq.walletAddress, now⟩],
          currentUserId := sys.store.currentUserId + 1 }
      sys.store.currentUserId ft.id = none :=
    getUserBalance_none_of_fresh _ _ _ (fun b hb => hnob b hb)
  unfold swapPost
  rw [hft, htt]
  dsimp only
  rw [hlu]
  dsimp only
  rw [hpr, hnb]
  dsimp only
  rw [hw]
  exact ⟨rfl, rfl, rfl⟩

lemma c4_trade_core (sys : Sys) (treq : TradeRequest)
    (fee : ℚ) (uname : String) (now : ℕ)
    (a : String) (tk btk : Token)
    (hw : treq.walletAddress = some a) (ha : a ≠ "")
    (hfresh : getUserByWalletAddress sys.store a = none)
    (hnob : ∀ b ∈ sys.store.userBalances, b.userId ≠ sys.store.currentUserId)
    (htk : getToken sys.store treq.tokenId = some tk)
    (hbtk : getToken sys.store treq.baseTokenId = some btk) :
    (tradePost sys treq fee uname now).1 = .error .insufficientBalance ∧
    (tradePost sys treq fee uname now).2.store.users
      = sys.store.users ++ [⟨sys.store.currentUserId, uname, "password", some a, now⟩] ∧
    (tradePost sys treq fee uname now).2.store.userBalances
      = sys.store.userBalances := by
  have hlu := lookupOrCreateUser_fresh sys.store treq.walletAddress uname now a hw ha hfresh
  have hnb : getUserBalance
      { sys.store with
          users := sys.store.users ++ [⟨sys.store.currentUserId, uname, "password", treq.walletAddress, now⟩],
          currentUserId := sys.store.currentUserId + 1 }
      sys.store.currentUserId
      (if treq.type == "buy" then btk.id else tk.id) = none :=
    getUserBalance_none_of_fresh _ _ _ (fun b hb => hnob b hb)
  unfold tradePost
  rw [htk, hbtk]
  dsimp only
  rw [hlu]
  dsimp only
  rw [hnb]
  dsimp only
  rw [hw]
  exact ⟨rfl, rfl, rfl⟩

/-- C4: a POST /api/swap or POST /api/trade naming a wallet address with no
existing user creates the user without seeding any balance rows, so the
debit-balance check finds no balance and the request returns HTTP 400
"Insufficient balance" for any positive debit amount. -/
theorem C4_fresh_wallet_insufficient_balance (sys : Sys)
    (sreq : SwapRequest) (treq : TradeRequest)
    (oracle : String → Option Quote) (fee : ℚ) (uname : String) (now : ℕ)
    (a : String) (ft tt tk btk : Token) (pf pt : ℚ) :
    (sreq.walletAddress = some a → a ≠ "" →
     getUserByWalletAddress sys.store a = none →
     (∀ b ∈ sys.store.userBalances, b.userId ≠ sys.store.currentUserId) →
     getToken sys.store sreq.fromTokenId = some ft →
     getToken sys.store sreq.toTokenId = some tt →
     resolvePrices sys.store.tokenPrices oracle ft tt = some (pf, pt) →
     0 < sreq.fromAmount →
     ((swapPost sys sreq oracle fee uname now).1 = .error .insufficientBalance ∧
      httpStatus .insufficientBalance = 400 ∧
      (swapPost sys sreq oracle fee uname now).2.store.users
        = sys.store.users ++ [⟨sys.store.currentUserId, uname, "password", some a, now⟩] ∧
      (swapPost sys sreq oracle fee uname now).2.store.userBalances
        = sys.store.userBalances)) ∧
    (treq.walletAddress = some a → a ≠ "" →
     getUserByWalletAddress sys.store a = none →
     (∀ b ∈ sys.store.userBalances, b.userId ≠ sys.store.currentUserId) →
     getToken sys.store treq.tokenId = some tk →
     getToken sys.store treq.baseTokenId = some btk →
     0 < (if treq.type == "buy" then treq.amount * treq.price else treq.amount) →
     ((tradePost sys treq fee uname now).1 = .error .insufficientBalance ∧
      httpStatus .insufficientBalance = 400 ∧
      (tradePost sys treq fee uname now).2.store.users
        = sys.store.users ++ [⟨sys.store.currentUserId, uname, "password", some a, now⟩] ∧
      (tradePost sys treq fee uname now).2.store.userBalances
        = sys.store.userBalances)) := by
  constructor
  · intro hw ha hfresh hnob hft htt hpr hamt
    obtain ⟨e1, e2, e3⟩ := c4_swap_core sys sreq oracle fee uname now a ft tt pf pt
      hw ha hfresh hnob hft htt hpr
    exact ⟨e1, rfl, e2, e3⟩
  · intro hw ha hfresh hnob htk hbtk hamt
    obtain ⟨e1, e2, e3⟩ := c4_trade_core sys treq fee uname now a tk btk
      hw ha hfresh hnob htk hbtk
    exact ⟨e1, rfl, e2, e3⟩

def c4treq : TradeRequest := ⟨1, 3, 2, 100, "buy", some "0xfresh"⟩

theorem C4_fresh_wallet_insufficient_balance_witness :
    (getUserByWalletAddress initSys.store "0xfresh" = none ∧
     (0:ℚ) < 1 ∧ 0 < (if c4treq.type == "buy" then c4treq.amount * c4treq.price else c4treq.amount)) ∧
    ((swapPost initSys c3req scnOracle (1/1000) "u" 5).1 = .error .insufficientBalance ∧
     httpStatus .insufficientBalance = 400 ∧
     (swapPost initSys c3req scnOracle (1/1000) "u" 5).2.store.users
       = initSys.store.users ++ [⟨initSys.store.currentUserId, "u", "password", some "0xfresh", 5⟩] ∧
     (swapPost initSys c3req scnOracle (1/1000) "u" 5).2.store.userBalances
       = initSys.store.userBalances) ∧
    ((tradePost initSys c4treq (1/1000) "u" 5).1 = .error .insufficientBalance ∧
     httpStatus .insufficientBalance = 400 ∧
     (tradePost initSys c4treq (1/1000) "u" 5).2.store.users
       = initSys.store.users ++ [⟨initSys.store.currentUserId, "u", "password", some "0xfresh", 5⟩] ∧
     (tradePost initSys c4treq (1/1000) "u" 5).2.store.userBalances
       = initSys.store.userBalances) :=
  ⟨⟨rfl, by norm_num, by norm_num [c4treq]⟩,
   (C4_fresh_wallet_insufficient_balance initSys c3req c4treq scnOracle (1/1000) "u" 5
      "0xfresh" ⟨1, "ETH", "Ethereum", "https://cryptologos.cc/logos/ethereum-eth-logo.svg", 18,
        "0xEeeeeEeeeEeEeeEeEeEeeEEEeeeeEeeeeeeeEEeE", "ethereum"⟩
      ⟨3, "USDT", "Tether", "https://cryptologos.cc/logos/tether-usdt-logo.svg", 6,
        "0xdAC17F958D2ee523a2206206994597C13D831ec7", "ethereum"⟩
      ⟨1, "ETH", "Ethereum", "https://cryptologos.cc/logos/ethereum-eth-logo.svg", 18,
        "0xEeeeeEeeeEeEeeEeEeEeeEEEeeeeEeeeeeeeEEeE", "ethereum"⟩
      ⟨3, "USDT", "Tether", "https://cryptologos.cc/logos/tether-usdt-logo.svg", 6,
        "0xdAC17F958D2ee523a2206206994597C13D831ec7", "ethereum"⟩
      (324567/100) 1).1
     rfl (by decide) rfl (fun b hb => absurd hb (List.not_mem_nil b)) rfl rfl rfl (by norm_num [c3req]),
   (C4_fresh_wallet_insufficient_balance initSys c3req c4treq scnOracle (1/1000) "u" 5
      "0xfresh" ⟨1, "ETH", "Ethereum", "https://cryptologos.cc/logos/ethereum-eth-logo.svg", 18,
        "0xEeeeeEeeeEeEeeEeEeEeeEEEeeeeEeeeeeeeEEeE", "ethereum"⟩
      ⟨3, "USDT", "Tether", "https://cryptologos.cc/logos/tether-usdt-logo.svg", 6,
        "0xdAC17F958D2ee523a2206206994597C13D831ec7", "ethereum"⟩
      ⟨1, "ETH", "Ethereum", "https://cryptologos.cc/logos/ethereum-eth-logo.svg", 18,
        "0xEeeeeEeeeEeEeeEeEeEeeEEEeeeeEeeeeeeeEEeE", "ethereum"⟩
      ⟨3, "USDT", "Tether", "https://cryptologos.cc/logos/tether-usdt-logo.svg", 6,
        "0xdAC17F958D2ee523a2206206994597C13D831ec7", "ethereum"⟩
      (324567/100) 1).2
     rfl (by decide) rfl (fun b hb => absurd hb (List.not_mem_nil b)) rfl rfl (by norm_num [c4treq])⟩


lemma find?_map_ite {α} (p : α → Bool) (g : α → α) (l : List α) (b : α)
    (hp : ∀ x, p x = true → p (g x) = true)
    (h : l.find? p = some b) :
    (l.map (fun x => if p x then g x else x)).find? p = some (g b) := by
  induction l with
  | nil => simp at h
  | cons a l ih =>
      by_cases ha : p a = true
      · rw [List.find?_cons_of_pos _ ha] at h
        injection h with h
        subst h
        simp only [List.map_cons, ha, if_true]
        exact List.find?_cons_of_pos _ (hp _ ha)
      · rw [List.find?_cons_of_neg _ ha] at h
        simp only [List.map_cons, ha, if_false, Bool.false_eq_true]
        rw [List.find?_cons_of_neg _ (by simp [ha]), ih h]

lemma find?_map_ite_other {α} (p q : α → Bool) (g : α → α) (l : List α)
    (hq : ∀ x, q (g x) = q x)
    (hexc : ∀ x, p x = true → q x = true → False) :
    (l.map (fun x => if p x then g x else x)).find? q = l.find? q := by
  induction l with
  | nil => rfl
  | cons a l ih =>
      by_cases ha : q a = true
      · have hpa : ¬ p a = true := fun hp2 => hexc a hp2 ha
        simp only [List.map_cons, hpa, if_false, Bool.false_eq_true, if_neg hpa]
        rw [List.find?_cons_of_pos _ ha, List.find?_cons_of_pos _ ha]
      · by_cases hpa : p a = true
        · simp only [List.map_cons, hpa, if_true]
          rw [List.find?_cons_of_neg _ (by rw [hq]; exact ha), List.find?_cons_of_neg _ ha, ih]
        · simp only [List.map_cons, hpa, if_false, Bool.false_eq_true, if_neg hpa]
          rw [List.find?_cons_of_neg _ ha, List.find?_cons_of_neg _ ha, ih]

lemma getUserBalance_update_self (s : MemStorage) (uid tid : ℕ) (amt : ℚ) (now : ℕ)
    (b : UserBalance) (h : getUserBalance s uid tid = some b) :
    getUserBalance (createOrUpdateUserBalance s uid tid amt now) uid tid
      = some { b with balance := amt, updatedAt := now } := by
  unfold createOrUpdateUserBalance
  rw [h]
  unfold getUserBalance at h ⊢
  exact find?_map_ite _ _ _ _ (fun x hx => by simpa using hx) h

lemma getUserBalance_update_new (s : MemStorage) (uid tid : ℕ) (amt : ℚ) (now : ℕ)
    (h : getUserBalance s uid tid = none) :
    getUserBalance (createOrUpdateUserBalance s uid tid amt now) uid tid
      = some ⟨s.currentBalanceId, uid, tid, amt, now⟩ := by
  unfold createOrUpdateUserBalance
  rw [h]
  unfold getUserBalance at h ⊢
  rw [List.find?_append, h]
  simp

lemma getUserBalance_update_other (s : MemStorage) (uid tid uid2 tid2 : ℕ)
    (amt : ℚ) (now : ℕ) (hne : ¬(uid2 = uid ∧ tid2 = tid)) :
    getUserBalance (createOrUpdateUserBalance s uid tid amt now) uid2 tid2
      = getUserBalance s uid2 tid2 := by
  unfold createOrUpdateUserBalance
  cases h : getUserBalance s uid tid with
  | some b =>
      unfold getUserBalance
      exact find?_map_ite_other _ _ _ _ (fun x => rfl)
        (fun x hx1 hx2 => by
          simp only [Bool.and_eq_true, beq_iff_eq] at hx1 hx2
          exact hne ⟨hx2.1.symm.trans hx1.1, hx2.2.symm.trans hx1.2⟩)
  | none =>
      unfold getUserBalance
      rw [List.find?_append]
      have : List.find? (fun (b : UserBalance) => b.userId == uid2 && b.tokenId == tid2)
          [⟨s.currentBalanceId, uid, tid, amt, now⟩] = none := by
        simp only [List.find?_cons, List.find?_nil]
        have : ((⟨s.currentBalanceId, uid, tid, amt, now⟩ : UserBalance).userId == uid2 &&
            (⟨s.currentBalanceId, uid, tid, amt, now⟩ : UserBalance).tokenId == tid2) = false := by
          by_contra hcon
          simp only [Bool.not_eq_false, Bool.and_eq_true, beq_iff_eq] at hcon
          exact hne ⟨hcon.1.symm, hcon.2.symm⟩
        rw [this]
      rw [this]
      simp


lemma updateTransactionStatus_userBalances (s : MemStorage) (id : ℕ)
    (st : String) (h : Option String) (now : ℕ) :
    (updateTransactionStatus s id st h now).userBalances = s.userBalances := by
  unfold updateTransactionStatus
  split <;> rfl

lemma getUserBalance_eq_of_ub (s1 s2 : MemStorage) (uid tid : ℕ)
    (h : s1.userBalances = s2.userBalances) :
    getUserBalance s1 uid tid = getUserBalance s2 uid tid := by
  unfold getUserBalance
  rw [h]

lemma getElem?_append_singleton {α} (l : List α) (a : α) :
    (l ++ [a])[l.length]? = some a := by
  simp

/-- C9: a POST /api/trade of type "buy" with amount "2" and price "100"
from a known wallet with a sufficient base-token balance computes
`total = amount * price = 200`; after its settlement fires, the base-token
balance is debited by 200 and the traded-token balance is credited by 2
(the destination balance row being created when absent). -/
theorem C9_trade_buy_total_and_settlement (sys : Sys) (treq : TradeRequest) (fee : ℚ) (uname : String)
    (now now2 : ℕ) (hash : String) (u : User) (tk btk : Token) (b : UserBalance)
    (htype : treq.type = "buy") (hamt : treq.amount = 2) (hpr : treq.price = 100)
    (htk : getToken sys.store treq.tokenId = some tk)
    (hbtk : getToken sys.store treq.baseTokenId = some btk)
    (hneq : tk.id ≠ btk.id)
    (hu : getUserByWalletAddress sys.store (strOrEmpty treq.walletAddress) = some u)
    (hb : getUserBalance sys.store u.id btk.id = some b)
    (hbal : 200 ≤ b.balance) :
    (tradePost sys treq fee uname now).1
      = .ok ⟨sys.store.currentTransactionId, "pending", "buy", 2, 100, 200, fee⟩ ∧
    ((getUserBalance (applyOp (tradePost sys treq fee uname now).2
        (.settle sys.queue.length hash now2)).store u.id btk.id).map UserBalance.balance
      = some (b.balance - 200)) ∧
    (getUserBalance sys.store u.id tk.id = none →
      (getUserBalance (applyOp (tradePost sys treq fee uname now).2
          (.settle sys.queue.length hash now2)).store u.id tk.id).map UserBalance.balance
        = some 2) ∧
    (∀ tb, getUserBalance sys.store u.id tk.id = some tb →
      (getUserBalance (applyOp (tradePost sys treq fee uname now).2
          (.settle sys.queue.length hash now2)).store u.id tk.id).map UserBalance.balance
        = some (tb.balance + 2)) := by
  obtain ⟨ti, bi, am, pr, ty, wa⟩ := treq
  dsimp only at htype hamt hpr htk hbtk hu
  subst htype hamt hpr
  have h200 : ((2:ℚ) * 100) = 200 := by norm_num
  have hred : tradePost sys ⟨ti, bi, 2, 100, "buy", wa⟩ fee uname now =
      (.ok ⟨sys.store.currentTransactionId, "pending", "buy", 2, 100, 2 * 100, fee⟩,
       ⟨(createTransaction sys.store
           ⟨u.id, "buy", "pending", btk.id, tk.id, 2 * 100, 2, 100, fee,
             .tradeMeta (tk.symbol ++ "/" ++ btk.symbol)⟩ now).2,
        sys.queue ++ [⟨sys.store.currentTransactionId, u.id, btk.id, tk.id, b.balance,
          2 * 100, 2⟩]⟩) := by
    unfold tradePost
    rw [htk, hbtk, lookupOrCreateUser_found _ _ _ _ _ hu]
    dsimp only
    simp only [beq_self_eq_true, if_true, reduceIte]
    rw [hb]
    dsimp only
    rw [if_neg (by rw [h200]; exact not_lt.mpr hbal)]
    rfl
  rw [hred]
  dsimp only [applyOp]
  rw [getElem?_append_singleton]
  unfold runSettle
  dsimp only
  set s1 := updateTransactionStatus
    (createTransaction sys.store
      ⟨u.id, "buy", "pending", btk.id, tk.id, 2 * 100, 2, 100, fee,
        .tradeMeta (tk.symbol ++ "/" ++ btk.symbol)⟩ now).2
    sys.store.currentTransactionId "completed" (some hash) now2 with hs1
  have hs1ub : s1.userBalances = sys.store.userBalances := by
    rw [hs1, updateTransactionStatus_userBalances]
    rfl
  have hbal1 : getUserBalance s1 u.id btk.id = some b := by
    rw [getUserBalance_eq_of_ub _ sys.store _ _ hs1ub]
    exact hb
  set s2 := createOrUpdateUserBalance s1 u.id btk.id (b.balance - 2 * 100) now2 with hs2
  have hsrc2 : getUserBalance s2 u.id btk.id
      = some { b with balance := b.balance - 2 * 100, updatedAt := now2 } :=
    getUserBalance_update_self s1 u.id btk.id _ now2 b hbal1
  have hdst2 : getUserBalance s2 u.id tk.id = getUserBalance sys.store u.id tk.id := by
    rw [hs2, getUserBalance_update_other _ _ _ _ _ _ now2 (fun hc => hneq hc.2),
      getUserBalance_eq_of_ub _ sys.store _ _ hs1ub]
  refine ⟨by norm_num, ?_, ?_, ?_⟩
  · rw [getUserBalance_update_other s2 u.id tk.id u.id btk.id _ now2 (fun hc => hneq hc.2.symm), hsrc2]
    show some (b.balance - 2 * 100) = _
    rw [h200]
  · intro hd
    have hnone := hdst2.trans hd
    rw [hnone]
    dsimp only
    rw [getUserBalance_update_new s2 u.id tk.id 2 now2 hnone]
    rfl
  · intro tb hd
    have hsome := hdst2.trans hd
    rw [hsome]
    dsimp only
    rw [getUserBalance_update_self s2 u.id tk.id (tb.balance + 2) now2 tb hsome]
    rfl


def c9store : MemStorage where
  users := [⟨1, "user_1", "password", some "0xabc", 0⟩]
  tokens := [⟨1, "ETH", "Ethereum", "logo", 18, "0x", "ethereum"⟩,
             ⟨2, "USDT", "Tether", "logo", 6, "0x", "ethereum"⟩]
  userBalances := [⟨1, 1, 2, 500, 0⟩]
  transactions := []
  tokenPrices := []
  currentUserId := 2
  currentTokenId := 3
  currentBalanceId := 2
  currentTransactionId := 1
  currentTokenPriceId := 1

def c9sys : Sys := ⟨c9store, []⟩

def c9treq : TradeRequest := ⟨1, 2, 2, 100, "buy", some "0xabc"⟩

def c9bal : UserBalance := ⟨1, 1, 2, 500, 0⟩

def c9tk : Token := ⟨1, "ETH", "Ethereum", "logo", 18, "0x", "ethereum"⟩

def c9btk : Token := ⟨2, "USDT", "Tether", "logo", 6, "0x", "ethereum"⟩

def c9user : User := ⟨1, "user_1", "password", some "0xabc", 0⟩

theorem C9_trade_buy_total_and_settlement_witness :
    (c9treq.type = "buy" ∧
     getToken c9sys.store c9treq.tokenId = some c9tk ∧
     getToken c9sys.store c9treq.baseTokenId = some c9btk ∧
     c9tk.id ≠ c9btk.id ∧
     getUserByWalletAddress c9sys.store (strOrEmpty c9treq.walletAddress) = some c9user ∧
     getUserBalance c9sys.store c9user.id c9btk.id = some c9bal ∧
     (200:ℚ) ≤ c9bal.balance) ∧
    ((tradePost c9sys c9treq (1/1000) "u" 5).1
       = .ok ⟨c9sys.store.currentTransactionId, "pending", "buy", 2, 100, 200, 1/1000⟩ ∧
     ((getUserBalance (applyOp (tradePost c9sys c9treq (1/1000) "u" 5).2
         (.settle c9sys.queue.length "0xhash" 7)).store c9user.id c9btk.id).map UserBalance.balance
       = some (c9bal.balance - 200)) ∧
     (getUserBalance c9sys.store c9user.id c9tk.id = none →
       (getUserBalance (applyOp (tradePost c9sys c9treq (1/1000) "u" 5).2
           (.settle c9sys.queue.length "0xhash" 7)).store c9user.id c9tk.id).map UserBalance.balance
         = some 2) ∧
     (∀ tb, getUserBalance c9sys.store c9user.id c9tk.id = some tb →
       (getUserBalance (applyOp (tradePost c9sys c9treq (1/1000) "u" 5).2
           (.settle c9sys.queue.length "0xhash" 7)).store c9user.id c9tk.id).map UserBalance.balance
         = some (tb.balance + 2))) :=
  ⟨⟨rfl, rfl, rfl, by decide, rfl, rfl, by norm_num [c9bal]⟩,
   C9_trade_buy_total_and_settlement c9sys c9treq (1/1000) "u" 5 7 "0xhash" c9user c9tk c9btk c9bal
     rfl rfl rfl rfl rfl (by decide) rfl rfl (by norm_num [c9bal])⟩


lemma createOrUpdateUserBalance_tokens (s : MemStorage) (uid tid : ℕ) (b : ℚ) (now : ℕ) :
    (createOrUpdateUserBalance s uid tid b now).tokens = s.tokens := by
  unfold createOrUpdateUserBalance
  split <;> rfl

lemma createOrUpdateUserBalance_tokenPrices (s : MemStorage) (uid tid : ℕ) (b : ℚ) (now : ℕ) :
    (createOrUpdateUserBalance s uid tid b now).tokenPrices = s.tokenPrices := by
  unfold createOrUpdateUserBalance
  split <;> rfl

lemma seedBalances_tokens (toks : List Token) (s : MemStorage) (uid : ℕ)
    (rands : ℕ → ℚ) (i now : ℕ) :
    (seedBalances s uid toks rands i now).tokens = s.tokens := by
  induction toks generalizing s i with
  | nil => rfl
  | cons t ts ih => rw [seedBalances, ih, createOrUpdateUserBalance_tokens]

lemma seedBalances_tokenPrices (toks : List Token) (s : MemStorage) (uid : ℕ)
    (rands : ℕ → ℚ) (i now : ℕ) :
    (seedBalances s uid toks rands i now).tokenPrices = s.tokenPrices := by
  induction toks generalizing s i with
  | nil => rfl
  | cons t ts ih => rw [seedBalances, ih, createOrUpdateUserBalance_tokenPrices]

/-- The balance rows the portfolio seeding loop appends, in order. -/
def seedRows (toks : List Token) (uid : ℕ) (rands : ℕ → ℚ) (i bid now : ℕ) :
    List UserBalance :=
  match toks with
  | [] => []
  | t :: ts => ⟨bid, uid, t.id, seedAmount t (rands i), now⟩ ::
      seedRows ts uid rands (i + 1) (bid + 1) now

lemma seedRows_length (toks : List Token) (uid : ℕ) (rands : ℕ → ℚ) (i bid now : ℕ) :
    (seedRows toks uid rands i bid now).length = toks.length := by
  induction toks generalizing i bid with
  | nil => rfl
  | cons t ts ih => simp [seedRows, ih]

lemma seedRows_userId (toks : List Token) (uid : ℕ) (rands : ℕ → ℚ) (i bid now : ℕ) :
    ∀ b ∈ seedRows toks uid rands i bid now, b.userId = uid := by
  induction toks generalizing i bid with
  | nil => intro b hb; simp [seedRows] at hb
  | cons t ts ih =>
      intro b hb
      rw [seedRows] at hb
      rcases List.mem_cons.mp hb with h | h
      · rw [h]
      · exact ih (i+1) (bid+1) b h

lemma seedRows_map_tokenId (toks : List Token) (uid : ℕ) (rands : ℕ → ℚ) (i bid now : ℕ) :
    (seedRows toks uid rands i bid now).map UserBalance.tokenId = toks.map Token.id := by
  induction toks generalizing i bid with
  | nil => rfl
  | cons t ts ih => simp [seedRows, ih]

lemma toFixedQ_nonneg (n : ℕ) (q : ℚ) (h : 0 ≤ q) : 0 ≤ toFixedQ n q := by
  unfold toFixedQ
  apply div_nonneg _ (by positivity)
  have h2 : (0:ℚ) ≤ q * 10^n + 1/2 := by positivity
  exact_mod_cast Int.floor_nonneg.mpr h2

lemma seedAmount_nonneg (t : Token) (r : ℚ) (h : 0 ≤ r) : 0 ≤ seedAmount t r := by
  unfold seedAmount
  split
  · exact toFixedQ_nonneg _ _ (by positivity)
  · exact toFixedQ_nonneg _ _ (by positivity)

lemma seedRows_balance_nonneg (toks : List Token) (uid : ℕ) (rands : ℕ → ℚ)
    (i bid now : ℕ) (hr : ∀ n, 0 ≤ rands n) :
    ∀ b ∈ seedRows toks uid rands i bid now, 0 ≤ b.balance := by
  induction toks generalizing i bid with
  | nil => intro b hb; simp [seedRows] at hb
  | cons t ts ih =>
      intro b hb
      rw [seedRows] at hb
      rcases List.mem_cons.mp hb with h | h
      · rw [h]
        exact seedAmount_nonneg t (rands i) (hr i)
      · exact ih (i+1) (bid+1) b h

lemma seedBalances_userBalances (toks : List Token) (s : MemStorage) (uid : ℕ)
    (rands : ℕ → ℚ) (i now : ℕ)
    (hfr : ∀ b ∈ s.userBalances, ∀ t ∈ toks, ¬(b.userId = uid ∧ b.tokenId = t.id))
    (hnd : (toks.map Token.id).Nodup) :
    (seedBalances s uid toks rands i now).userBalances
      = s.userBalances ++ seedRows toks uid rands i s.currentBalanceId now := by
  induction toks generalizing s i with
  | nil => simp [seedBalances, seedRows]
  | cons t ts ih =>
      rw [seedBalances]
      have hnone : getUserBalance s uid t.id = none := by
        unfold getUserBalance
        rw [List.find?_eq_none]
        intro b hb
        have := hfr b hb t (List.mem_cons_self t ts)
        simp only [Bool.and_eq_true, beq_iff_eq, not_and] at this ⊢
        intro hcon
        exact fun h2 => this hcon h2
      have hupd : createOrUpdateUserBalance s uid t.id (seedAmount t (rands i)) now
          = ⟨s.users, s.tokens,
              s.userBalances ++ [⟨s.currentBalanceId, uid, t.id, seedAmount t (rands i), now⟩],
              s.transactions, s.tokenPrices, s.currentUserId, s.currentTokenId,
              s.currentBalanceId + 1, s.currentTransactionId, s.currentTokenPriceId⟩ := by
        unfold createOrUpdateUserBalance
        rw [hnone]
      rw [hupd]
      rw [ih]
      · simp [seedRows, List.append_assoc]
      · intro b hb t2 ht2
        rcases List.mem_append.mp hb with h | h
        · exact hfr b h t2 (List.mem_cons_of_mem t ht2)
        · rcases List.mem_singleton.mp h with rfl
          rintro ⟨h1, h2⟩
          dsimp at h2
          rw [List.map_cons] at hnd
          exact (List.nodup_cons.mp hnd).1 (h2 ▸ List.mem_map_of_mem Token.id ht2)
      · exact (List.nodup_cons.mp (List.map_cons Token.id t ts ▸ hnd)).2


lemma getOrCreateUserByWallet_fresh (s : MemStorage) (addr uname : String)
    (rands : ℕ → ℚ) (now : ℕ)
    (h : getUserByWalletAddress s addr = none) :
    getOrCreateUserByWallet s addr uname rands now =
      (⟨s.currentUserId, uname, "password", some addr, now⟩,
       seedBalances
         ⟨s.users ++ [⟨s.currentUserId, uname, "password", some addr, now⟩],
          s.tokens, s.userBalances, s.transactions, s.tokenPrices,
          s.currentUserId + 1, s.currentTokenId, s.currentBalanceId,
          s.currentTransactionId, s.currentTokenPriceId⟩
         s.currentUserId s.tokens rands 0 now) := by
  unfold getOrCreateUserByWallet
  rw [h]
  rfl

lemma length_filterMap_of_isSome {α β} (f : α → Option β) (l : List α)
    (h : ∀ a ∈ l, (f a).isSome) : (l.filterMap f).length = l.length := by
  induction l with
  | nil => rfl
  | cons a l ih =>
      rcases Option.isSome_iff_exists.mp (h a (List.mem_cons_self a l)) with ⟨b, hb⟩
      rw [List.filterMap_cons, hb]
      simp only [List.length_cons]
      rw [ih (fun x hx => h x (List.mem_cons_of_mem a hx))]

/-- C7: a GET /api/portfolio for a never-seen wallet address creates a new
user, seeds exactly one balance row per registered token (each with a
non-negative placeholder amount), and answers with one asset entry per
registered token (every registered token having a stored price row, as the
server seeds at startup). -/
theorem C7_portfolio_fresh_wallet (sys : Sys) (addr : String)
    (oracle : String → Option Quote) (rands : ℕ → ℚ) (uname : String) (now : ℕ)
    (hfresh : getUserByWalletAddress sys.store addr = none)
    (hnob : ∀ b ∈ sys.store.userBalances, b.userId ≠ sys.store.currentUserId)
    (hnodup : (sys.store.tokens.map Token.id).Nodup)
    (hprices : ∀ t ∈ sys.store.tokens, ∃ p ∈ sys.store.tokenPrices, p.tokenId = t.id)
    (hr : ∀ n, 0 ≤ rands n) :
    (portfolioGet sys addr oracle rands uname now).2.store.users
      = sys.store.users ++ [⟨sys.store.currentUserId, uname, "password", some addr, now⟩] ∧
    ((portfolioGet sys addr oracle rands uname now).2.store.userBalances.filter
        (fun b => b.userId == sys.store.currentUserId)).map UserBalance.tokenId
      = sys.store.tokens.map Token.id ∧
    (∀ b ∈ (portfolioGet sys addr oracle rands uname now).2.store.userBalances,
      b.userId = sys.store.currentUserId → 0 ≤ b.balance) ∧
    (portfolioGet sys addr oracle rands uname now).1.assets.length
      = sys.store.tokens.length := by
  have hgc := getOrCreateUserByWallet_fresh sys.store addr uname rands now hfresh
  unfold portfolioGet
  rw [hgc]
  dsimp only
  set s1 := seedBalances
    ⟨sys.store.users ++ [⟨sys.store.currentUserId, uname, "password", some addr, now⟩],
     sys.store.tokens, sys.store.userBalances, sys.store.transactions, sys.store.tokenPrices,
     sys.store.currentUserId + 1, sys.store.currentTokenId, sys.store.currentBalanceId,
     sys.store.currentTransactionId, sys.store.currentTokenPriceId⟩
    sys.store.currentUserId sys.store.tokens rands 0 now with hs1
  have hub : s1.userBalances = sys.store.userBalances ++
      seedRows sys.store.tokens sys.store.currentUserId rands 0 sys.store.currentBalanceId now := by
    rw [hs1, seedBalances_userBalances]
    · intro b hb t ht
      rintro ⟨h1, h2⟩
      exact hnob b hb h1
    · exact hnodup
  have husers : s1.users = sys.store.users ++
      [⟨sys.store.currentUserId, uname, "password", some addr, now⟩] := by
    rw [hs1, seedBalances_users]
  have htoks : s1.tokens = sys.store.tokens := by
    rw [hs1, seedBalances_tokens]
  have hprs : s1.tokenPrices = sys.store.tokenPrices := by
    rw [hs1, seedBalances_tokenPrices]
  have hfilter : s1.userBalances.filter (fun b => b.userId == sys.store.currentUserId)
      = seedRows sys.store.tokens sys.store.currentUserId rands 0 sys.store.currentBalanceId now := by
    rw [hub, List.filter_append]
    have h1 : sys.store.userBalances.filter (fun b => b.userId == sys.store.currentUserId) = [] := by
      rw [List.filter_eq_nil_iff]
      intro b hb
      simp only [beq_iff_eq]
      exact fun hc => hnob b hb (by exact_mod_cast hc)
    have h2 : (seedRows sys.store.tokens sys.store.currentUserId rands 0
          sys.store.currentBalanceId now).filter (fun b => b.userId == sys.store.currentUserId)
        = seedRows sys.store.tokens sys.store.currentUserId rands 0 sys.store.currentBalanceId now := by
      rw [List.filter_eq_self]
      intro b hb
      simp only [beq_iff_eq]
      exact seedRows_userId _ _ _ _ _ _ b hb
    rw [h1, h2, List.nil_append]
  refine ⟨husers, ?_, ?_, ?_⟩
  · rw [hfilter, seedRows_map_tokenId]
  · intro b hb hbuid
    rw [hub] at hb
    rcases List.mem_append.mp hb with h | h
    · exact absurd hbuid (hnob b h)
    · exact seedRows_balance_nonneg _ _ _ _ _ _ hr b h
  · unfold getUserBalances
    rw [hfilter]
    have hlen := seedRows_length sys.store.tokens sys.store.currentUserId rands 0
      sys.store.currentBalanceId now
    rw [← hlen]
    apply length_filterMap_of_isSome
    intro b hb
    have hbid : b.tokenId ∈ sys.store.tokens.map Token.id := by
      rw [← seedRows_map_tokenId sys.store.tokens sys.store.currentUserId rands 0
        sys.store.currentBalanceId now]
      exact List.mem_map_of_mem UserBalance.tokenId hb
    rcases List.mem_map.mp hbid with ⟨t, ht, htid⟩
    have hft : (s1.tokens.find? (fun t2 => t2.id == b.tokenId)).isSome := by
      rw [htoks, List.find?_isSome]
      exact ⟨t, ht, by simp [htid]⟩
    have hfp : (s1.tokenPrices.find? (fun p => p.tokenId == b.tokenId)).isSome := by
      rw [hprs, List.find?_isSome]
      rcases hprices t ht with ⟨p, hp, hpid⟩
      exact ⟨p, hp, by simp [hpid, htid]⟩
    rcases Option.isSome_iff_exists.mp hft with ⟨t0, ht0⟩
    rcases Option.isSome_iff_exists.mp hfp with ⟨p0, hp0⟩
    rw [ht0, hp0]
    rfl


theorem C7_portfolio_fresh_wallet_witness :
    (getUserByWalletAddress initSys.store "0xnew" = none ∧
     (initSys.store.tokens.map Token.id).Nodup ∧
     (∀ t ∈ initSys.store.tokens, ∃ p ∈ initSys.store.tokenPrices, p.tokenId = t.id)) ∧
    ((portfolioGet initSys "0xnew" scnOracle (fun _ => 0) "u" 5).2.store.users
      = initSys.store.users ++ [⟨initSys.store.currentUserId, "u", "password", some "0xnew", 5⟩] ∧
    ((portfolioGet initSys "0xnew" scnOracle (fun _ => 0) "u" 5).2.store.userBalances.filter
        (fun b => b.userId == initSys.store.currentUserId)).map UserBalance.tokenId
      = initSys.store.tokens.map Token.id ∧
    (∀ b ∈ (portfolioGet initSys "0xnew" scnOracle (fun _ => 0) "u" 5).2.store.userBalances,
      b.userId = initSys.store.currentUserId → 0 ≤ b.balance) ∧
    (portfolioGet initSys "0xnew" scnOracle (fun _ => 0) "u" 5).1.assets.length
      = initSys.store.tokens.length) :=
  ⟨⟨rfl, by decide, by decide⟩,
   C7_portfolio_fresh_wallet initSys "0xnew" scnOracle (fun _ => 0) "u" 5
     rfl (fun b hb => absurd hb (List.not_mem_nil b)) (by decide) (by decide)
     (fun n => le_refl 0)⟩


def c6tokens : List Token :=
  [⟨1, "ETH", "Ethereum", "https://cryptologos.cc/logos/ethereum-eth-logo.svg", 18,
     "0xEeeeeEeeeEeEeeEeEeEeeEEEeeeeEeeeeeeeEEeE", "ethereum"⟩,
   ⟨2, "BTC", "Bitcoin", "https://cryptologos.cc/logos/bitcoin-btc-logo.svg", 8, "0x", "bitcoin"⟩,
   ⟨3, "USDT", "Tether", "https://cryptologos.cc/logos/tether-usdt-logo.svg", 6,
     "0xdAC17F958D2ee523a2206206994597C13D831ec7", "ethereum"⟩,
   ⟨4, "SOL", "Solana", "https://cryptologos.cc/logos/solana-sol-logo.svg", 9, "0x", "solana"⟩,
   ⟨5, "ADA", "Cardano", "https://cryptologos.cc/logos/cardano-ada-logo.svg", 6, "0x", "cardano"⟩]

def c6prices : List TokenPrice :=
  [⟨1, 1, 324567/100, some (245/100), some 1000000000, none, 0⟩,
   ⟨2, 2, 4478209/100, some (187/100), some 2500000000, none, 0⟩,
   ⟨3, 3, 1, some (1/100), some 5000000000, none, 0⟩,
   ⟨4, 4, 9834/100, some (-65/100), some 750000000, none, 0⟩,
   ⟨5, 5, 4523/10000, some (312/100), some 300000000, none, 0⟩]

/-- Store after the portfolio request seeded user 1 (random draws all 0). -/
def c6S1 : MemStorage :=
  ⟨[⟨1, "u", "password", some "0xabc", 0⟩], c6tokens,
   [⟨1, 1, 1, 1/10, 0⟩, ⟨2, 1, 2, 1/10, 0⟩, ⟨3, 1, 3, 1000, 0⟩,
    ⟨4, 1, 4, 1/10, 0⟩, ⟨5, 1, 5, 1/10, 0⟩],
   [], c6prices, 2, 6, 6, 1, 6⟩

def c6tx : Transaction :=
  ⟨1, 1, "swap", "pending", 1, 3, -9000000, -2772925159/1000000, 324567/100, none,
   1/1000, .swapMeta (1 / (324567/100)) "0.05", 1, 1⟩

def c6entry : SettleEntry := ⟨1, 1, 1, 3, 1/10, -9000000, -2772925159/1000000⟩

/-- Store after the negative-amount swap was admitted. -/
def c6S2 : MemStorage :=
  ⟨[⟨1, "u", "password", some "0xabc", 0⟩], c6tokens,
   [⟨1, 1, 1, 1/10, 0⟩, ⟨2, 1, 2, 1/10, 0⟩, ⟨3, 1, 3, 1000, 0⟩,
    ⟨4, 1, 4, 1/10, 0⟩, ⟨5, 1, 5, 1/10, 0⟩],
   [c6tx], c6prices, 2, 6, 6, 2, 6⟩

/-- Store after the settlement fired: the USDT balance is negative. -/
def c6S3 : MemStorage :=
  ⟨[⟨1, "u", "password", some "0xabc", 0⟩], c6tokens,
   [⟨1, 1, 1, 90000001/10, 2⟩, ⟨2, 1, 2, 1/10, 0⟩, ⟨3, 1, 3, -1772925159/1000000, 2⟩,
    ⟨4, 1, 4, 1/10, 0⟩, ⟨5, 1, 5, 1/10, 0⟩],
   [{ c6tx with status := "completed", txHash := some "0xh", updatedAt := 2 }],
   c6prices, 2, 6, 6, 2, 6⟩

def c6ops : List Op :=
  [.portfolio "0xabc" (fun _ => none) (fun _ => 0) "u" 0,
   .swap ⟨1, 3, -9000000, some "0xabc"⟩ (fun _ => none) (1/1000) "u2" 1,
   .settle 0 "0xh" 2]

set_option maxHeartbeats 2000000 in
lemma c6_step1 : applyOp initSys (.portfolio "0xabc" (fun _ => none) (fun _ => 0) "u" 0)
    = ⟨c6S1, []⟩ := by
  norm_num [applyOp, portfolioGet, getOrCreateUserByWallet, seedBalances, seedAmount,
    createUser, createOrUpdateUserBalance, getUserBalance, getUserByWalletAddress,
    toFixedQ, initSys, initStore, emptyStore, createToken, createOrUpdateTokenPrice,
    getStoredTokenPrice, List.find?_cons_of_pos, List.find?_cons_of_neg, List.find?_nil,
    c6S1, c6tokens, c6prices,
    show ("ETH":String) ≠ "USDT" from by decide, show ("ETH":String) ≠ "BTC" from by decide,
    show ("BTC":String) ≠ "USDT" from by decide, show ("SOL":String) ≠ "USDT" from by decide,
    show ("SOL":String) ≠ "BTC" from by decide, show ("ADA":String) ≠ "USDT" from by decide,
    show ("ADA":String) ≠ "BTC" from by decide]

set_option maxHeartbeats 2000000 in
lemma c6_step2 : applyOp ⟨c6S1, []⟩ (.swap ⟨1, 3, -9000000, some "0xabc"⟩ (fun _ => none) (1/1000) "u2" 1)
    = ⟨c6S2, [c6entry]⟩ := by
  norm_num [applyOp, swapPost, lookupOrCreateUser, getUserByWalletAddress, getToken,
    getUserBalance, resolvePrices, createTransaction, toFixedQ, jsOrNat, strTruthy,
    strOrEmpty, List.find?_cons_of_pos, List.find?_cons_of_neg, List.find?_nil,
    c6S1, c6S2, c6tx, c6entry, c6tokens, c6prices]

set_option maxHeartbeats 2000000 in
lemma c6_step3 : applyOp ⟨c6S2, [c6entry]⟩ (.settle 0 "0xh" 2) = ⟨c6S3, []⟩ := by
  norm_num [applyOp, runSettle, updateTransactionStatus, createOrUpdateUserBalance,
    getUserBalance, List.find?_cons_of_pos, List.find?_cons_of_neg, List.find?_nil,
    List.eraseIdx, c6S2, c6S3, c6tx, c6entry, c6tokens, c6prices,
    show ("0xh":String) ≠ "" from by decide]

lemma c6_run : runOps initSys c6ops = ⟨c6S3, []⟩ := by
  have h : runOps initSys c6ops
      = applyOp (applyOp (applyOp initSys
          (.portfolio "0xabc" (fun _ => none) (fun _ => 0) "u" 0))
          (.swap ⟨1, 3, -9000000, some "0xabc"⟩ (fun _ => none) (1/1000) "u2" 1))
          (.settle 0 "0xh" 2) := rfl
  rw [h, c6_step1, c6_step2, c6_step3]

/-- C6 (counterexample to the claim as stated): the admission check does not
validate the sign of the requested amount, so a swap with a negative
`fromAmount` is admitted (`balance < fromAmount` is false) and its
settlement credits a negative amount: after seeding a portfolio, admitting
the swap `fromAmount = -9000000` ETH→USDT and settling it, the stored USDT
balance is -1772925159/1000000 < 0 in a reachable state. -/
theorem C6_negative_balance_counterexample :
    Reachable ⟨c6S3, []⟩ ∧ ∃ b ∈ c6S3.userBalances, b.balance < 0 :=
  ⟨⟨c6ops, c6_run⟩,
   ⟨⟨3, 1, 3, -1772925159/1000000, 2⟩, by simp [c6S3], by norm_num⟩⟩


/-- Non-negativity side conditions on an event's parameters: request amounts
and live quotes are non-negative (zod performs no sign validation, so this
is a genuine restriction — see the counterexample). -/
def OpNN : Op → Prop
  | .swap req oracle _ _ _ =>
      0 ≤ req.fromAmount ∧ ∀ sym q, oracle sym = some q → 0 ≤ q.price
  | .trade req _ _ _ => 0 ≤ req.amount ∧ 0 ≤ req.price
  | .portfolio _ _ rands _ _ => ∀ n, 0 ≤ rands n
  | .settle _ _ _ => True

/-- Inductive invariant for balance non-negativity: all stored balances are
non-negative, every queued settlement debits at most its admission snapshot
and credits a non-negative amount, and stored prices are non-negative. -/
def InvNN (sys : Sys) : Prop :=
  (∀ b ∈ sys.store.userBalances, 0 ≤ b.balance) ∧
  (∀ e ∈ sys.queue, e.debit ≤ e.snapshot ∧ 0 ≤ e.credit) ∧
  (∀ p ∈ sys.store.tokenPrices, 0 ≤ p.price)

lemma createTransaction_userBalances (s : MemStorage) (t : InsertTransaction) (now : ℕ) :
    (createTransaction s t now).2.userBalances = s.userBalances := rfl

lemma createTransaction_tokenPrices (s : MemStorage) (t : InsertTransaction) (now : ℕ) :
    (createTransaction s t now).2.tokenPrices = s.tokenPrices := rfl

lemma updateTransactionStatus_tokenPrices (s : MemStorage) (id : ℕ)
    (st : String) (h : Option String) (now : ℕ) :
    (updateTransactionStatus s id st h now).tokenPrices = s.tokenPrices := by
  unfold updateTransactionStatus
  split <;> rfl

lemma createOrUpdateUserBalance_nonneg (s : MemStorage) (uid tid : ℕ) (amt : ℚ)
    (now : ℕ) (hs : ∀ b ∈ s.userBalances, 0 ≤ b.balance) (ha : 0 ≤ amt) :
    ∀ b ∈ (createOrUpdateUserBalance s uid tid amt now).userBalances, 0 ≤ b.balance := by
  unfold createOrUpdateUserBalance
  split
  · intro b hb
    dsimp only at hb
    rcases List.mem_map.mp hb with ⟨a, ha2, hfa⟩
    by_cases hp : (a.userId == uid && a.tokenId == tid) = true
    · rw [if_pos hp] at hfa
      rw [← hfa]
      exact ha
    · rw [if_neg hp] at hfa
      rw [← hfa]
      exact hs a ha2
  · intro b hb
    dsimp only at hb
    rcases List.mem_append.mp hb with h | h
    · exact hs b h
    · rcases List.mem_singleton.mp h with rfl
      exact ha

lemma seedBalances_nonneg (toks : List Token) (s : MemStorage) (uid : ℕ)
    (rands : ℕ → ℚ) (i now : ℕ)
    (hs : ∀ b ∈ s.userBalances, 0 ≤ b.balance) (hr : ∀ n, 0 ≤ rands n) :
    ∀ b ∈ (seedBalances s uid toks rands i now).userBalances, 0 ≤ b.balance := by
  induction toks generalizing s i with
  | nil => exact hs
  | cons t ts ih =>
      rw [seedBalances]
      exact ih _ _ (createOrUpdateUserBalance_nonneg _ _ _ _ _ hs
        (seedAmount_nonneg t (rands i) (hr i)))

lemma resolvePrices_nonneg (prices : List TokenPrice) (oracle : String → Option Quote)
    (ft tt : Token) (pf pt : ℚ)
    (hp : ∀ p ∈ prices, 0 ≤ p.price)
    (ho : ∀ sym q, oracle sym = some q → 0 ≤ q.price)
    (h : resolvePrices prices oracle ft tt = some (pf, pt)) : 0 ≤ pf ∧ 0 ≤ pt := by
  unfold resolvePrices at h
  split at h
  · rename_i qf qt hqf hqt
    injection h with h
    injection h with h1 h2
    exact ⟨h1 ▸ ho _ _ hqf, h2 ▸ ho _ _ hqt⟩
  · split at h
    · rename_i p1 p2 hp1 hp2
      injection h with h
      injection h with h1 h2
      exact ⟨h1 ▸ hp _ (List.mem_of_find?_eq_some hp1),
             h2 ▸ hp _ (List.mem_of_find?_eq_some hp2)⟩
    · exact absurd h (by simp)


lemma swapPost_invNN (sys : Sys) (req : SwapRequest) (oracle : String → Option Quote)
    (fee : ℚ) (uname : String) (now : ℕ) (hInv : InvNN sys)
    (hA : 0 ≤ req.fromAmount) (hO : ∀ sym q, oracle sym = some q → 0 ≤ q.price) :
    InvNN (swapPost sys req oracle fee uname now).2 := by
  obtain ⟨hBal, hQ, hPr⟩ := hInv
  rcases hsp : swapPost sys req oracle fee uname now with ⟨res, sys2⟩
  dsimp only
  unfold swapPost at hsp
  split at hsp
  case h_2 =>
    injection hsp with h1 h2
    subst h2
    exact ⟨hBal, hQ, hPr⟩
  case h_1 ft tt hft htt =>
    split at hsp
    case h_1 =>
      injection hsp with h1 h2
      subst h2
      exact ⟨hBal, hQ, hPr⟩
    case h_2 user store1 hlu =>
      have hBal1 := lookupOrCreateUser_userBalances sys.store req.walletAddress uname now
      have hPr1 := lookupOrCreateUser_tokenPrices sys.store req.walletAddress uname now
      rw [hlu] at hBal1 hPr1
      dsimp only at hBal1 hPr1
      split at hsp
      case h_1 =>
        injection hsp with h1 h2
        subst h2
        exact ⟨by rw [hBal1]; exact hBal, hQ, by rw [hPr1]; exact hPr⟩
      case h_2 pf pt hpp =>
        have hpf : 0 ≤ pf ∧ 0 ≤ pt :=
          resolvePrices_nonneg store1.tokenPrices oracle ft tt pf pt
            (by rw [hPr1]; exact hPr) hO hpp
        split at hsp
        case h_1 =>
          injection hsp with h1 h2
          subst h2
          exact ⟨by rw [hBal1]; exact hBal, hQ, by rw [hPr1]; exact hPr⟩
        case h_2 srcBal hsb =>
          dsimp only at hsp
          split at hsp
          case isTrue =>
            injection hsp with h1 h2
            subst h2
            exact ⟨by rw [hBal1]; exact hBal, hQ, by rw [hPr1]; exact hPr⟩
          case isFalse hlt =>
            injection hsp with h1 h2
            subst h2
            refine ⟨?_, ?_, ?_⟩
            · dsimp only
              rw [createTransaction_userBalances, hBal1]
              exact hBal
            · intro e he
              dsimp only at he
              rcases List.mem_append.mp he with h | h
              · exact hQ e h
              · rcases List.mem_singleton.mp h with rfl
                dsimp only
                refine ⟨not_lt.mp hlt, ?_⟩
                exact toFixedQ_nonneg _ _ (mul_nonneg hA (div_nonneg hpf.2 hpf.1))
            · dsimp only
              rw [createTransaction_tokenPrices, hPr1]
              exact hPr

lemma tradePost_invNN (sys : Sys) (req : TradeRequest)
    (fee : ℚ) (uname : String) (now : ℕ) (hInv : InvNN sys)
    (hA : 0 ≤ req.amount) (hP : 0 ≤ req.price) :
    InvNN (tradePost sys req fee uname now).2 := by
  obtain ⟨hBal, hQ, hPr⟩ := hInv
  rcases hsp : tradePost sys req fee uname now with ⟨res, sys2⟩
  dsimp only
  unfold tradePost at hsp
  split at hsp
  case h_2 =>
    injection hsp with h1 h2
    subst h2
    exact ⟨hBal, hQ, hPr⟩
  case h_1 tk btk htk hbtk =>
    split at hsp
    case h_1 =>
      injection hsp with h1 h2
      subst h2
      exact ⟨hBal, hQ, hPr⟩
    case h_2 user store1 hlu =>
      have hBal1 := lookupOrCreateUser_userBalances sys.store req.walletAddress uname now
      have hPr1 := lookupOrCreateUser_tokenPrices sys.store req.walletAddress uname now
      rw [hlu] at hBal1 hPr1
      dsimp only at hBal1 hPr1
      by_cases hty : (req.type == "buy") = true
      · simp only [hty, eq_self_iff_true, if_true] at hsp
        split at hsp
        · injection hsp with h1 h2
          subst h2
          exact ⟨by rw [hBal1]; exact hBal, hQ, by rw [hPr1]; exact hPr⟩
        · rename_i srcBal hsb
          split at hsp
          · injection hsp with h1 h2
            subst h2
            exact ⟨by rw [hBal1]; exact hBal, hQ, by rw [hPr1]; exact hPr⟩
          · rename_i hlt
            injection hsp with h1 h2
            subst h2
            refine ⟨?_, ?_, ?_⟩
            · dsimp only
              rw [createTransaction_userBalances, hBal1]
              exact hBal
            · intro e he
              dsimp only at he
              rcases List.mem_append.mp he with h | h
              · exact hQ e h
              · rcases List.mem_singleton.mp h with rfl
                exact ⟨not_lt.mp hlt, hA⟩
            · dsimp only
              rw [createTransaction_tokenPrices, hPr1]
              exact hPr
      · simp only [Bool.not_eq_true] at hty
        simp only [hty, Bool.false_eq_true, if_false] at hsp
        split at hsp
        · injection hsp with h1 h2
          subst h2
          exact ⟨by rw [hBal1]; exact hBal, hQ, by rw [hPr1]; exact hPr⟩
        · rename_i srcBal hsb
          split at hsp
          · injection hsp with h1 h2
            subst h2
            exact ⟨by rw [hBal1]; exact hBal, hQ, by rw [hPr1]; exact hPr⟩
          · rename_i hlt
            injection hsp with h1 h2
            subst h2
            refine ⟨?_, ?_, ?_⟩
            · dsimp only
              rw [createTransaction_userBalances, hBal1]
              exact hBal
            · intro e he
              dsimp only at he
              rcases List.mem_append.mp he with h | h
              · exact hQ e h
              · rcases List.mem_singleton.mp h with rfl
                exact ⟨not_lt.mp hlt, mul_nonneg hA hP⟩
            · dsimp only
              rw [createTransaction_tokenPrices, hPr1]
              exact hPr

lemma portfolioGet_invNN (sys : Sys) (addr : String) (oracle : String → Option Quote)
    (rands : ℕ → ℚ) (uname : String) (now : ℕ) (hInv : InvNN sys)
    (hr : ∀ n, 0 ≤ rands n) :
    InvNN (portfolioGet sys addr oracle rands uname now).2 := by
  obtain ⟨hBal, hQ, hPr⟩ := hInv
  unfold portfolioGet
  dsimp only
  unfold getOrCreateUserByWallet
  split
  · exact ⟨hBal, hQ, hPr⟩
  · dsimp only
    refine ⟨?_, hQ, ?_⟩
    · exact seedBalances_nonneg _ _ _ _ _ _ hBal hr
    · rw [seedBalances_tokenPrices]
      exact hPr

lemma runSettle_invNN (sys : Sys) (e : SettleEntry) (i : ℕ) (hash : String) (now : ℕ)
    (hInv : InvNN sys) (he : e ∈ sys.queue) :
    InvNN (runSettle sys e i hash now) := by
  obtain ⟨hBal, hQ, hPr⟩ := hInv
  obtain ⟨hds, hc⟩ := hQ e he
  unfold runSettle
  dsimp only
  have hBal1 : ∀ b ∈ (updateTransactionStatus sys.store e.txId "completed" (some hash) now).userBalances,
      0 ≤ b.balance := by
    rw [updateTransactionStatus_userBalances]
    exact hBal
  have hBal2 := createOrUpdateUserBalance_nonneg _ e.userId e.srcTokenId _ now hBal1
    (sub_nonneg.mpr hds)
  refine ⟨?_, ?_, ?_⟩
  · apply createOrUpdateUserBalance_nonneg _ _ _ _ _ hBal2
    split
    · rename_i b2 hb2
      exact add_nonneg (hBal2 b2 (List.mem_of_find?_eq_some hb2)) hc
    · exact hc
  · intro e2 he2
    exact hQ e2 (List.eraseIdx_subset _ _ he2)
  · rw [createOrUpdateUserBalance_tokenPrices, createOrUpdateUserBalance_tokenPrices,
      updateTransactionStatus_tokenPrices]
    exact hPr

lemma applyOp_invNN (sys : Sys) (op : Op) (hInv : InvNN sys) (hop : OpNN op) :
    InvNN (applyOp sys op) := by
  cases op with
  | swap req oracle fee uname now => exact swapPost_invNN sys req oracle fee uname now hInv hop.1 hop.2
  | trade req fee uname now => exact tradePost_invNN sys req fee uname now hInv hop.1 hop.2
  | portfolio addr oracle rands uname now => exact portfolioGet_invNN sys addr oracle rands uname now hInv hop
  | settle i hash now =>
      dsimp only [applyOp]
      split
      · rename_i e hget
        exact runSettle_invNN sys e i hash now hInv (List.getElem?_mem hget)
      · exact hInv

lemma runOps_invNN (ops : List Op) (sys : Sys) (hInv : InvNN sys)
    (h : ∀ op ∈ ops, OpNN op) : InvNN (runOps sys ops) := by
  induction ops generalizing sys with
  | nil => exact hInv
  | cons op ops ih =>
      exact ih _ (applyOp_invNN sys op hInv (h op (List.mem_cons_self op ops)))
        (fun o ho => h o (List.mem_cons_of_mem op ho))

lemma initSys_invNN : InvNN initSys := by
  refine ⟨fun b hb => absurd hb (List.not_mem_nil b), fun e he => absurd he (List.not_mem_nil e), ?_⟩
  intro p hp
  have h : initSys.store.tokenPrices = c6prices := rfl
  rw [h] at hp
  simp only [c6prices, List.mem_cons, List.not_mem_nil, or_false] at hp
  rcases hp with rfl | rfl | rfl | rfl | rfl
  · norm_num
  · norm_num
  · norm_num
  · norm_num
  · norm_num

/-- C6 (amended): in every state reachable by an interleaving of admitted
swaps, trades, portfolio requests and settlements whose parameters are
non-negative (request amounts and live quotes; the code itself never checks
signs), every stored balance amount is non-negative: the admission-time
check that the debited snapshot covers the debit keeps the settlement-time
writes non-negative. -/
theorem C6_balances_nonneg_amended (ops : List Op) (h : ∀ op ∈ ops, OpNN op) :
    ∀ b ∈ (runOps initSys ops).store.userBalances, 0 ≤ b.balance :=
  (runOps_invNN ops initSys initSys_invNN h).1

theorem C6_balances_nonneg_amended_witness :
    (∀ op ∈ [Op.portfolio "0xw" (fun _ => none) (fun _ => 0) "u" 0], OpNN op) ∧
    (∀ b ∈ (runOps initSys [Op.portfolio "0xw" (fun _ => none) (fun _ => 0) "u" 0]).store.userBalances,
      0 ≤ b.balance) :=
  ⟨fun op hop => by
     rcases List.mem_singleton.mp hop with rfl
     exact fun n => le_refl 0,
   C6_balances_nonneg_amended [Op.portfolio "0xw" (fun _ => none) (fun _ => 0) "u" 0]
     (fun op hop => by
       rcases List.mem_singleton.mp hop with rfl
       exact fun n => le_refl 0)⟩

lemma createOrUpdateUserBalance_transactions (s : MemStorage) (uid tid : ℕ)
    (b : ℚ) (now : ℕ) :
    (createOrUpdateUserBalance s uid tid b now).transactions = s.transactions := by
  unfold createOrUpdateUserBalance
  split <;> rfl

lemma createOrUpdateUserBalance_curTx (s : MemStorage) (uid tid : ℕ)
    (b : ℚ) (now : ℕ) :
    (createOrUpdateUserBalance s uid tid b now).currentTransactionId
      = s.currentTransactionId := by
  unfold createOrUpdateUserBalance
  split <;> rfl

lemma updateTransactionStatus_curTx (s : MemStorage) (id : ℕ) (st : String)
    (h : Option String) (now : ℕ) :
    (updateTransactionStatus s id st h now).currentTransactionId
      = s.currentTransactionId := by
  unfold updateTransactionStatus
  split <;> rfl

lemma seedBalances_transactions (toks : List Token) (s : MemStorage) (uid : ℕ)
    (rands : ℕ → ℚ) (i now : ℕ) :
    (seedBalances s uid toks rands i now).transactions = s.transactions := by
  induction toks generalizing s i with
  | nil => rfl
  | cons t ts ih => rw [seedBalances, ih, createOrUpdateUserBalance_transactions]

lemma seedBalances_curTx (toks : List Token) (s : MemStorage) (uid : ℕ)
    (rands : ℕ → ℚ) (i now : ℕ) :
    (seedBalances s uid toks rands i now).currentTransactionId = s.currentTransactionId := by
  induction toks generalizing s i with
  | nil => rfl
  | cons t ts ih => rw [seedBalances, ih, createOrUpdateUserBalance_curTx]

/-- The transaction-status rewrite performed by one settlement. -/
def settleMark (id : ℕ) (h : Option String) (now : ℕ) : Transaction → Transaction :=
  fun tx => if tx.id == id then
    { tx with status := "completed",
              txHash := (match h with
                         | some h2 => if h2 == "" then tx.txHash else some h2
                         | none => tx.txHash),
              updatedAt := now }
  else tx

lemma updateTransactionStatus_spec (s : MemStorage) (id : ℕ)
    (h : Option String) (now : ℕ) :
    (updateTransactionStatus s id "completed" h now).transactions = s.transactions ∨
    (updateTransactionStatus s id "completed" h now).transactions
      = s.transactions.map (settleMark id h now) := by
  unfold updateTransactionStatus settleMark
  split
  · exact Or.inl rfl
  · exact Or.inr rfl

lemma txId_ne_of_mem_eraseIdx (q : List SettleEntry) (i : ℕ) (e e2 : SettleEntry)
    (hnd : (q.map SettleEntry.txId).Nodup)
    (hi : q[i]? = some e) (h2 : e2 ∈ q.eraseIdx i) : e2.txId ≠ e.txId := by
  induction q generalizing i with
  | nil => simp at hi
  | cons a t ih =>
      rw [List.map_cons] at hnd
      rcases List.nodup_cons.mp hnd with ⟨hna, hnt⟩
      cases i with
      | zero =>
          simp only [List.getElem?_cons_zero, Option.some.injEq] at hi
          subst hi
          rw [List.eraseIdx_cons_zero] at h2
          intro hc
          exact hna (hc ▸ List.mem_map_of_mem SettleEntry.txId h2)
      | succ i =>
          rw [List.eraseIdx_cons_succ] at h2
          rw [List.getElem?_cons_succ] at hi
          rcases List.mem_cons.mp h2 with rfl | h3
          · intro hc
            exact hna (hc ▸ List.mem_map_of_mem SettleEntry.txId (List.getElem?_mem hi))
          · exact ih i hnt hi h3

lemma createTransaction_txs (s : MemStorage) (t : InsertTransaction) (now : ℕ) :
    (createTransaction s t now).2.transactions
      = s.transactions ++ [(createTransaction s t now).1] := rfl

lemma createTransaction_curTx2 (s : MemStorage) (t : InsertTransaction) (now : ℕ) :
    (createTransaction s t now).2.currentTransactionId = s.currentTransactionId + 1 := rfl

lemma swapPost_txs (sys : Sys) (req : SwapRequest) (oracle : String → Option Quote)
    (fee : ℚ) (uname : String) (now : ℕ) :
    ((swapPost sys req oracle fee uname now).2.store.transactions = sys.store.transactions ∧
     (swapPost sys req oracle fee uname now).2.queue = sys.queue ∧
     (swapPost sys req oracle fee uname now).2.store.currentTransactionId
       = sys.store.currentTransactionId) ∨
    (∃ tx e, tx.status = "pending" ∧ tx.id = sys.store.currentTransactionId ∧
      e.txId = tx.id ∧
      (swapPost sys req oracle fee uname now).2.store.transactions
        = sys.store.transactions ++ [tx] ∧
      (swapPost sys req oracle fee uname now).2.queue = sys.queue ++ [e] ∧
      (swapPost sys req oracle fee uname now).2.store.currentTransactionId
        = sys.store.currentTransactionId + 1) := by
  rcases hsp : swapPost sys req oracle fee uname now with ⟨res, sys2⟩
  dsimp only
  unfold swapPost at hsp
  split at hsp
  case h_2 =>
    injection hsp with h1 h2
    subst h2
    exact Or.inl ⟨rfl, rfl, rfl⟩
  case h_1 ft tt hft htt =>
    split at hsp
    case h_1 =>
      injection hsp with h1 h2
      subst h2
      exact Or.inl ⟨rfl, rfl, rfl⟩
    case h_2 user store1 hlu =>
      have hTx1 := lookupOrCreateUser_transactions sys.store req.walletAddress uname now
      have hCur1 := lookupOrCreateUser_curTx sys.store req.walletAddress uname now
      rw [hlu] at hTx1 hCur1
      dsimp only at hTx1 hCur1
      split at hsp
      case h_1 =>
        injection hsp with h1 h2
        subst h2
        exact Or.inl ⟨hTx1, rfl, hCur1⟩
      case h_2 pf pt hpp =>
        split at hsp
        case h_1 =>
          injection hsp with h1 h2
          subst h2
          exact Or.inl ⟨hTx1, rfl, hCur1⟩
        case h_2 srcBal hsb =>
          dsimp only at hsp
          split at hsp
          case isTrue =>
            injection hsp with h1 h2
            subst h2
            exact Or.inl ⟨hTx1, rfl, hCur1⟩
          case isFalse hlt =>
            injection hsp with h1 h2
            subst h2
            refine Or.inr ⟨_, _, rfl, ?_, rfl, ?_, rfl, ?_⟩
            · exact hCur1
            · rw [createTransaction_txs, hTx1]
            · rw [createTransaction_curTx2, hCur1]

lemma tradePost_txs (sys : Sys) (req : TradeRequest) (fee : ℚ) (uname : String) (now : ℕ) :
    ((tradePost sys req fee uname now).2.store.transactions = sys.store.transactions ∧
     (tradePost sys req fee uname now).2.queue = sys.queue ∧
     (tradePost sys req fee uname now).2.store.currentTransactionId
       = sys.store.currentTransactionId) ∨
    (∃ tx e, tx.status = "pending" ∧ tx.id = sys.store.currentTransactionId ∧
      e.txId = tx.id ∧
      (tradePost sys req fee uname now).2.store.transactions
        = sys.store.transactions ++ [tx] ∧
      (tradePost sys req fee uname now).2.queue = sys.queue ++ [e] ∧
      (tradePost sys req fee uname now).2.store.currentTransactionId
        = sys.store.currentTransactionId + 1) := by
  rcases hsp : tradePost sys req fee uname now with ⟨res, sys2⟩
  dsimp only
  unfold tradePost at hsp
  split at hsp
  case h_2 =>
    injection hsp with h1 h2
    subst h2
    exact Or.inl ⟨rfl, rfl, rfl⟩
  case h_1 tk btk htk hbtk =>
    split at hsp
    case h_1 =>
      injection hsp with h1 h2
      subst h2
      exact Or.inl ⟨rfl, rfl, rfl⟩
    case h_2 user store1 hlu =>
      have hTx1 := lookupOrCreateUser_transactions sys.store req.walletAddress uname now
      have hCur1 := lookupOrCreateUser_curTx sys.store req.walletAddress uname now
      rw [hlu] at hTx1 hCur1
      dsimp only at hTx1 hCur1
      by_cases hty : (req.type == "buy") = true
      · simp only [hty, eq_self_iff_true, if_true] at hsp
        split at hsp
        · injection hsp with h1 h2
          subst h2
          exact Or.inl ⟨hTx1, rfl, hCur1⟩
        · rename_i srcBal hsb
          split at hsp
          · injection hsp with h1 h2
            subst h2
            exact Or.inl ⟨hTx1, rfl, hCur1⟩
          · rename_i hlt
            injection hsp with h1 h2
            subst h2
            refine Or.inr ⟨_, _, rfl, ?_, rfl, ?_, rfl, ?_⟩
            · exact hCur1
            · rw [createTransaction_txs, hTx1]
            · rw [createTransaction_curTx2, hCur1]
      · simp only [Bool.not_eq_true] at hty
        simp only [hty, Bool.false_eq_true, if_false] at hsp
        split at hsp
        · injection hsp with h1 h2
          subst h2
          exact Or.inl ⟨hTx1, rfl, hCur1⟩
        · rename_i srcBal hsb
          split at hsp
          · injection hsp with h1 h2
            subst h2
            exact Or.inl ⟨hTx1, rfl, hCur1⟩
          · rename_i hlt
            injection hsp with h1 h2
            subst h2
            refine Or.inr ⟨_, _, rfl, ?_, rfl, ?_, rfl, ?_⟩
            · exact hCur1
            · rw [createTransaction_txs, hTx1]
            · rw [createTransaction_curTx2, hCur1]

lemma portfolioGet_txs (sys : Sys) (addr : String) (oracle : String → Option Quote)
    (rands : ℕ → ℚ) (uname : String) (now : ℕ) :
    (portfolioGet sys addr oracle rands uname now).2.store.transactions
      = sys.store.transactions ∧
    (portfolioGet sys addr oracle rands uname now).2.queue = sys.queue ∧
    (portfolioGet sys addr oracle rands uname now).2.store.currentTransactionId
      = sys.store.currentTransactionId := by
  unfold portfolioGet
  dsimp only
  unfold getOrCreateUserByWallet
  split
  · exact ⟨rfl, rfl, rfl⟩
  · dsimp only
    refine ⟨?_, rfl, ?_⟩
    · rw [seedBalances_transactions]
      rfl
    · rw [seedBalances_curTx]
      rfl

/-- Inductive invariant for the transaction lifecycle: statuses are only
ever "pending" or "completed", transaction ids and queued settlement ids
stay below the id counter and are duplicate-free, and every queued
settlement points at a pending transaction. -/
def Inv5 (sys : Sys) : Prop :=
  (∀ tx ∈ sys.store.transactions, tx.status = "pending" ∨ tx.status = "completed") ∧
  (∀ tx ∈ sys.store.transactions, tx.id < sys.store.currentTransactionId) ∧
  (sys.store.transactions.map Transaction.id).Nodup ∧
  (∀ e ∈ sys.queue, e.txId < sys.store.currentTransactionId) ∧
  (sys.queue.map SettleEntry.txId).Nodup ∧
  (∀ e ∈ sys.queue, ∃ tx ∈ sys.store.transactions, tx.id = e.txId ∧ tx.status = "pending")

lemma inv5_of_admission (sys s2 : Sys)
    (hcase :
      (s2.store.transactions = sys.store.transactions ∧ s2.queue = sys.queue ∧
       s2.store.currentTransactionId = sys.store.currentTransactionId) ∨
      (∃ tx e, tx.status = "pending" ∧ tx.id = sys.store.currentTransactionId ∧
        e.txId = tx.id ∧
        s2.store.transactions = sys.store.transactions ++ [tx] ∧
        s2.queue = sys.queue ++ [e] ∧
        s2.store.currentTransactionId = sys.store.currentTransactionId + 1))
    (h : Inv5 sys) : Inv5 s2 := by
  obtain ⟨h1, h2, h3, h4, h5, h6⟩ := h
  rcases hcase with ⟨hT, hQ, hC⟩ | ⟨tx, e, hst, hid, hetx, hT, hQ, hC⟩
  · exact ⟨by rw [hT]; exact h1, by rw [hT, hC]; exact h2, by rw [hT]; exact h3,
      by rw [hQ, hC]; exact h4, by rw [hQ]; exact h5,
      by rw [hQ, hT]; exact h6⟩
  · refine ⟨?_, ?_, ?_, ?_, ?_, ?_⟩
    · intro tx2 htx2
      rw [hT] at htx2
      rcases List.mem_append.mp htx2 with hm | hm
      · exact h1 tx2 hm
      · rcases List.mem_singleton.mp hm with rfl
        exact Or.inl hst
    · intro tx2 htx2
      rw [hT] at htx2
      rw [hC]
      rcases List.mem_append.mp htx2 with hm | hm
      · exact Nat.lt_succ_of_lt (h2 tx2 hm)
      · rcases List.mem_singleton.mp hm with rfl
        rw [hid]
        exact Nat.lt_succ_self _
    · rw [hT, List.map_append]
      rw [List.nodup_append]
      refine ⟨h3, List.nodup_singleton _, ?_⟩
      intro a ha hb
      rcases List.mem_map.mp ha with ⟨tx0, htx0, rfl⟩
      rcases List.mem_singleton.mp (by simpa using hb) with h7
      have := h2 tx0 htx0
      rw [h7, hid] at this
      exact lt_irrefl _ this
    · intro e2 he2
      rw [hQ] at he2
      rw [hC]
      rcases List.mem_append.mp he2 with hm | hm
      · exact Nat.lt_succ_of_lt (h4 e2 hm)
      · rcases List.mem_singleton.mp hm with rfl
        rw [hetx, hid]
        exact Nat.lt_succ_self _
    · rw [hQ, List.map_append]
      rw [List.nodup_append]
      refine ⟨h5, List.nodup_singleton _, ?_⟩
      intro a ha hb
      rcases List.mem_map.mp ha with ⟨e0, he0, rfl⟩
      rcases List.mem_singleton.mp (by simpa using hb) with h7
      have := h4 e0 he0
      rw [h7, hetx, hid] at this
      exact lt_irrefl _ this
    · intro e2 he2
      rw [hQ] at he2
      rw [hT]
      rcases List.mem_append.mp he2 with hm | hm
      · rcases h6 e2 hm with ⟨tx0, htx0, hid0, hp0⟩
        exact ⟨tx0, List.mem_append_left _ htx0, hid0, hp0⟩
      · rcases List.mem_singleton.mp hm with rfl
        exact ⟨tx, List.mem_append_right _ (List.mem_singleton_self tx), hetx.symm, hst⟩

lemma settleMark_id (id : ℕ) (h : Option String) (now : ℕ) (tx : Transaction) :
    (settleMark id h now tx).id = tx.id := by
  unfold settleMark
  split <;> rfl

lemma runSettle_txs (sys : Sys) (e : SettleEntry) (i : ℕ) (hash : String) (now : ℕ) :
    (runSettle sys e i hash now).store.transactions
      = (updateTransactionStatus sys.store e.txId "completed" (some hash) now).transactions ∧
    (runSettle sys e i hash now).store.currentTransactionId
      = sys.store.currentTransactionId ∧
    (runSettle sys e i hash now).queue = sys.queue.eraseIdx i := by
  unfold runSettle
  dsimp only
  refine ⟨?_, ?_, rfl⟩
  · rw [createOrUpdateUserBalance_transactions, createOrUpdateUserBalance_transactions]
  · rw [createOrUpdateUserBalance_curTx, createOrUpdateUserBalance_curTx,
      updateTransactionStatus_curTx]

lemma runSettle_inv5 (sys : Sys) (e : SettleEntry) (i : ℕ) (hash : String) (now : ℕ)
    (hInv : Inv5 sys) (hget : sys.queue[i]? = some e) :
    Inv5 (runSettle sys e i hash now) := by
  obtain ⟨h1, h2, h3, h4, h5, h6⟩ := hInv
  obtain ⟨hT, hC, hQ⟩ := runSettle_txs sys e i hash now
  have hsub : (sys.queue.eraseIdx i) ⊆ sys.queue := List.eraseIdx_subset _ _
  have hsubl : ((sys.queue.eraseIdx i).map SettleEntry.txId).Sublist
      (sys.queue.map SettleEntry.txId) := (List.eraseIdx_sublist _ _).map _
  rcases updateTransactionStatus_spec sys.store e.txId (some hash) now with hU | hU
  · refine ⟨?_, ?_, ?_, ?_, ?_, ?_⟩
    · rw [hT, hU]
      exact h1
    · rw [hT, hU, hC]
      exact h2
    · rw [hT, hU]
      exact h3
    · intro e2 he2
      rw [hQ] at he2
      rw [hC]
      exact h4 e2 (hsub he2)
    · rw [hQ]
      exact h5.sublist hsubl
    · intro e2 he2
      rw [hQ] at he2
      rw [hT, hU]
      exact h6 e2 (hsub he2)
  · refine ⟨?_, ?_, ?_, ?_, ?_, ?_⟩
    · intro tx2 htx2
      rw [hT, hU] at htx2
      rcases List.mem_map.mp htx2 with ⟨tx0, htx0, rfl⟩
      unfold settleMark
      split
      · exact Or.inr rfl
      · exact h1 tx0 htx0
    · intro tx2 htx2
      rw [hT, hU] at htx2
      rw [hC]
      rcases List.mem_map.mp htx2 with ⟨tx0, htx0, rfl⟩
      rw [settleMark_id]
      exact h2 tx0 htx0
    · rw [hT, hU, List.map_map]
      have : (Transaction.id ∘ settleMark e.txId (some hash) now)
          = fun tx => Transaction.id tx := by
        funext tx
        exact settleMark_id _ _ _ tx
      rw [this]
      exact h3
    · intro e2 he2
      rw [hQ] at he2
      rw [hC]
      exact h4 e2 (hsub he2)
    · rw [hQ]
      exact h5.sublist hsubl
    · intro e2 he2
      rw [hQ] at he2
      have hne := txId_ne_of_mem_eraseIdx sys.queue i e e2 h5 hget he2
      rcases h6 e2 (hsub he2) with ⟨tx0, htx0, hid0, hp0⟩
      have hmark : settleMark e.txId (some hash) now tx0 = tx0 := by
        unfold settleMark
        rw [if_neg]
        simp only [beq_iff_eq, hid0]
        exact hne
      refine ⟨tx0, ?_, hid0, hp0⟩
      rw [hT, hU]
      rw [← hmark]
      exact List.mem_map_of_mem _ htx0

lemma applyOp_inv5 (sys : Sys) (op : Op) (hInv : Inv5 sys) : Inv5 (applyOp sys op) := by
  cases op with
  | swap req oracle fee uname now =>
      exact inv5_of_admission sys _ (swapPost_txs sys req oracle fee uname now) hInv
  | trade req fee uname now =>
      exact inv5_of_admission sys _ (tradePost_txs sys req fee uname now) hInv
  | portfolio addr oracle rands uname now =>
      exact inv5_of_admission sys _
        (Or.inl (portfolioGet_txs sys addr oracle rands uname now)) hInv
  | settle i hash now =>
      dsimp only [applyOp]
      split
      · rename_i e hget
        exact runSettle_inv5 sys e i hash now hInv hget
      · exact hInv

lemma inv5_init : Inv5 initSys := by
  refine ⟨?_, ?_, ?_, ?_, ?_, ?_⟩
  · intro tx htx
    exact absurd htx (List.not_mem_nil tx)
  · intro tx htx
    exact absurd htx (List.not_mem_nil tx)
  · exact List.nodup_nil
  · intro e he
    exact absurd he (List.not_mem_nil e)
  · exact List.nodup_nil
  · intro e he
    exact absurd he (List.not_mem_nil e)

lemma runOps_inv5 (ops : List Op) (sys : Sys) (hInv : Inv5 sys) :
    Inv5 (runOps sys ops) := by
  induction ops generalizing sys with
  | nil => exact hInv
  | cons op ops ih => exact ih _ (applyOp_inv5 sys op hInv)

/-- Every field of a transaction other than status, txHash and updatedAt
agrees between the two records. -/
def SameCore (a b : Transaction) : Prop :=
  a.id = b.id ∧ a.userId = b.userId ∧ a.type = b.type ∧ a.fromTokenId = b.fromTokenId ∧
  a.toTokenId = b.toTokenId ∧ a.fromAmount = b.fromAmount ∧ a.toAmount = b.toAmount ∧
  a.price = b.price ∧ a.networkFee = b.networkFee ∧ a.metadata = b.metadata ∧
  a.createdAt = b.createdAt

lemma sameCore_refl (tx : Transaction) : SameCore tx tx :=
  ⟨rfl, rfl, rfl, rfl, rfl, rfl, rfl, rfl, rfl, rfl, rfl⟩

lemma settleMark_sameCore (id : ℕ) (h : Option String) (now : ℕ) (tx : Transaction) :
    SameCore (settleMark id h now tx) tx := by
  unfold settleMark
  split
  · exact ⟨rfl, rfl, rfl, rfl, rfl, rfl, rfl, rfl, rfl, rfl, rfl⟩
  · exact sameCore_refl tx

lemma applyOp_tx_step (sys : Sys) (op : Op) (hInv : Inv5 sys) :
    ∀ tx ∈ sys.store.transactions, ∃ tx2 ∈ (applyOp sys op).store.transactions,
      SameCore tx2 tx ∧
      ((tx2.status = tx.status ∧ tx2.txHash = tx.txHash ∧ tx2.updatedAt = tx.updatedAt) ∨
       (tx.status = "pending" ∧ tx2.status = "completed")) := by
  obtain ⟨h1, h2, h3, h4, h5, h6⟩ := hInv
  have hadm : ∀ s2 : Sys,
      (s2.store.transactions = sys.store.transactions ∧ s2.queue = sys.queue ∧
       s2.store.currentTransactionId = sys.store.currentTransactionId) ∨
      (∃ tx e, tx.status = "pending" ∧ tx.id = sys.store.currentTransactionId ∧
        e.txId = tx.id ∧
        s2.store.transactions = sys.store.transactions ++ [tx] ∧
        s2.queue = sys.queue ++ [e] ∧
        s2.store.currentTransactionId = sys.store.currentTransactionId + 1) →
      ∀ tx ∈ sys.store.transactions, ∃ tx2 ∈ s2.store.transactions,
        SameCore tx2 tx ∧
        ((tx2.status = tx.status ∧ tx2.txHash = tx.txHash ∧ tx2.updatedAt = tx.updatedAt) ∨
         (tx.status = "pending" ∧ tx2.status = "completed")) := by
    intro s2 hcase tx htx
    refine ⟨tx, ?_, sameCore_refl tx, Or.inl ⟨rfl, rfl, rfl⟩⟩
    rcases hcase with ⟨hT, _, _⟩ | ⟨tx0, e0, _, _, _, hT, _, _⟩
    · rw [hT]
      exact htx
    · rw [hT]
      exact List.mem_append_left _ htx
  cases op with
  | swap req oracle fee uname now =>
      exact hadm _ (swapPost_txs sys req oracle fee uname now)
  | trade req fee uname now =>
      exact hadm _ (tradePost_txs sys req fee uname now)
  | portfolio addr oracle rands uname now =>
      exact hadm _ (Or.inl (portfolioGet_txs sys addr oracle rands uname now))
  | settle i hash now =>
      dsimp only [applyOp]
      split
      · rename_i e hget
        intro tx htx
        obtain ⟨hT, _, _⟩ := runSettle_txs sys e i hash now
        rcases updateTransactionStatus_spec sys.store e.txId (some hash) now with hU | hU
        · refine ⟨tx, ?_, sameCore_refl tx, Or.inl ⟨rfl, rfl, rfl⟩⟩
          rw [hT, hU]
          exact htx
        · by_cases hid : (tx.id == e.txId) = true
          · refine ⟨settleMark e.txId (some hash) now tx, ?_,
              settleMark_sameCore _ _ _ tx, Or.inr ⟨?_, ?_⟩⟩
            · rw [hT, hU]
              exact List.mem_map_of_mem _ htx
            · rcases h6 e (List.getElem?_mem hget) with ⟨tx0, htx0, hid0, hp0⟩
              have hideq : tx.id = tx0.id := by
                rw [hid0]
                exact beq_iff_eq.mp hid
              have : tx = tx0 := List.inj_on_of_nodup_map h3 htx htx0 hideq
              rw [this]
              exact hp0
            · unfold settleMark
              rw [if_pos hid]
          · have hm : settleMark e.txId (some hash) now tx = tx := by
              unfold settleMark
              rw [if_neg hid]
            refine ⟨tx, ?_, sameCore_refl tx, Or.inl ⟨rfl, rfl, rfl⟩⟩
            rw [hT, hU, ← hm]
            exact List.mem_map_of_mem _ htx
      · intro tx htx
        exact ⟨tx, htx, sameCore_refl tx, Or.inl ⟨rfl, rfl, rfl⟩⟩

/-- C5: in every state reachable from the seeded startup store by any
sequence of swap, trade, portfolio and settlement operations, every stored
transaction has status "pending" or "completed" (never the declared
"failed"); and across any single further operation every existing
transaction persists with id, userId, type, token ids, amounts, price,
networkFee, metadata and createdAt unchanged, and either its status,
txHash and updatedAt are all unchanged, or it transitions from "pending"
to "completed" (the settlement path, which also sets the hash and the
updated timestamp). -/
theorem C5_transaction_lifecycle (ops : List Op) (op : Op) :
    (∀ tx ∈ (runOps initSys ops).store.transactions,
        tx.status = "pending" ∨ tx.status = "completed") ∧
    (∀ tx ∈ (runOps initSys ops).store.transactions,
        ∃ tx2 ∈ (applyOp (runOps initSys ops) op).store.transactions,
          SameCore tx2 tx ∧
          ((tx2.status = tx.status ∧ tx2.txHash = tx.txHash ∧
            tx2.updatedAt = tx.updatedAt) ∨
           (tx.status = "pending" ∧ tx2.status = "completed"))) ∧
    (∀ tx ∈ (applyOp (runOps initSys ops) op).store.transactions,
        tx.status = "pending" ∨ tx.status = "completed") := by
  have h := runOps_inv5 ops initSys inv5_init
  exact ⟨h.1, applyOp_tx_step _ op h, (applyOp_inv5 _ op h).1⟩

end Defi
